import Mathlib

/-!
# cardgen-pro: card-data synthesis engine

A shallow embedding of `internal/generator/luhn.go`, `internal/generator/generator.go`,
`internal/iso/iso8583.go` and `pkg/transformer/transformer.go`, followed by theorems
about it.

Conventions of the embedding:

* a Go `string` is its byte sequence (`len`, indexing and slicing are byte based);
* a Go `int` is an `Int`/`Nat`; every quantity computed here stays far below `2^63`
  (digit sums are bounded by nine times a string length), so no wrap-around is modelled;
* `crypto/rand` is an explicit entropy stream and `time.Now` an explicit clock, both
  threaded through the functions that read them;
* the keyed hash (`crypto/hmac` over `crypto/sha256`) is a parameter `hmac`, with
  `hmacSHA256` the function the code uses;
* a Go `map` is a list of entries with distinct keys, compared key by key;
* a Go run-time panic (index or slice out of range) is an explicit failure value.
-/

namespace CardGen

/-! ## Strings and the standard-library helpers the code calls -/

/-- A Go string: an immutable sequence of bytes. -/
abbrev GoString := List UInt8

/-- The bytes (UTF-8) of a string literal of the source. -/
def str (s : String) : GoString := s.data.flatMap String.utf8EncodeChar

/-- The expression `strconv.Atoi(string(s[i]))` for a byte `b = s[i]`: `string(b)` is the
UTF-8 encoding of the code point `b`, and `Atoi` accepts a one-character string only when
that character is a decimal digit (a lone sign, or the two-byte encoding of a code point
above 127, is a syntax error).  `none` stands for `err != nil`. -/
def atoiByte (b : UInt8) : Option Nat :=
  if 48 ≤ b.toNat ∧ b.toNat ≤ 57 then some (b.toNat - 48) else none

/-- The function `strconv.Itoa` on a non-negative integer. -/
def itoaNat (n : Nat) : GoString := (Nat.toDigits 10 n).map fun c => UInt8.ofNat c.toNat

/-- The function `strconv.Itoa`, also `fmt.Sprintf("%d", n)`. -/
def Itoa (n : Int) : GoString :=
  if n < 0 then 45 :: itoaNat n.natAbs else itoaNat n.natAbs

/-- The call `fmt.Sprintf("%02d", n)`: the decimal rendering padded with zeros to width two,
the sign counting towards the width. -/
def sprintf02d (n : Int) : GoString :=
  if 0 ≤ n ∧ n < 10 then 48 :: itoaNat n.natAbs else Itoa n

/-- Every byte is a decimal digit character. -/
def allDigits (s : GoString) : Prop := ∀ b ∈ s, 48 ≤ b.toNat ∧ b.toNat ≤ 57

instance (s : GoString) : Decidable (allDigits s) := by
  unfold allDigits; infer_instance

/-! ## luhn.go -/

/-- The loop shared by `ValidateLuhn` and `CalculateLuhnCheckDigit`:
`for i := len(pan) - 1; i >= 0; i--` with the state `(sum, isSecond)`.  The first argument
is the bytes still to visit, in visiting order (right to left); `none` is the early return
taken when `strconv.Atoi` fails. -/
def luhnLoop : List UInt8 → Nat → Bool → Option Nat
  | [], sum, _ => some sum
  | b :: rest, sum, isSecond =>
    match atoiByte b with
    | none => none
    | some digit =>
      let digit := if isSecond then (if digit * 2 > 9 then digit * 2 - 9 else digit * 2) else digit
      luhnLoop rest (sum + digit) (!isSecond)

/-- The function `ValidateLuhn`. -/
def ValidateLuhn (pan : GoString) : Bool :=
  if pan.length < 13 ∨ pan.length > 19 then false
  else
    match luhnLoop pan.reverse 0 false with
    | none => false
    | some sum => sum % 10 == 0

/-- The function `CalculateLuhnCheckDigit`. -/
def CalculateLuhnCheckDigit (partialPAN : GoString) : Nat :=
  match luhnLoop partialPAN.reverse 0 true with
  | none => 0
  | some sum => (10 - (sum % 10)) % 10

/-- The function `AppendLuhnCheckDigit`. -/
def AppendLuhnCheckDigit (partialPAN : GoString) : GoString :=
  partialPAN ++ Itoa (CalculateLuhnCheckDigit partialPAN)

/-! ## generator.go: PAN construction -/

/-- The entropy source `crypto/rand.Reader`: the stream of raw values still to be drawn.
The source is assumed not to fail (the code discards the error of `rand.Int`). -/
abbrev RandReader := Nat → Nat

/-- The call `rand.Int(rand.Reader, big.NewInt(max))`: a value in `[0, max)` and the
advanced stream.  Every value below `max` is a possible outcome. -/
def randInt (r : RandReader) (max : Nat) : Nat × RandReader :=
  (r 0 % max, fun i => r (i + 1))

/-- The `for i := 0; i < n; i++` loop of `generateRandomDigits`; the first argument counts
the iterations left, `digits` holds the bytes written so far. -/
def generateRandomDigitsLoop : Nat → RandReader → GoString → GoString × RandReader
  | 0, r, digits => (digits, r)
  | left + 1, r, digits =>
    let (num, r) := randInt r 10
    generateRandomDigitsLoop left r (digits ++ [UInt8.ofNat (48 + num)])

/-- The function `generateRandomDigits`. -/
def generateRandomDigits (r : RandReader) (n : Int) : GoString × RandReader :=
  if n ≤ 0 then ([], r) else generateRandomDigitsLoop n.toNat r []

/-- The errors `GeneratePAN` returns. -/
inductive PANError
  /-- The text "BIN must be at least 6 digits". -/
  | binTooShort
  /-- The text "PAN length must be between 13 and 19". -/
  | invalidLength
  /-- The text "BIN too long for requested PAN length". -/
  | binTooLong
  deriving DecidableEq, Repr

/-- The function `GeneratePAN`, with the entropy stream passed in and out. -/
def GeneratePAN (r : RandReader) (bin : GoString) (length : Int) :
    Except PANError GoString × RandReader :=
  if (bin.length : Int) < 6 then (.error .binTooShort, r)
  else if length < 13 ∨ length > 19 then (.error .invalidLength, r)
  else
    let randomDigitsNeeded : Int := length - bin.length - 1
    if randomDigitsNeeded < 0 then (.error .binTooLong, r)
    else
      let (randomPart, r) := generateRandomDigits r randomDigitsNeeded
      let partialPAN := bin ++ randomPart
      let fullPAN := AppendLuhnCheckDigit partialPAN
      (.ok fullPAN, r)

/-! ## generator.go: deterministic CVC -/

/-- The keyed hash `hmac.New(sha256.New, key)` followed by `Write(payload)` and `Sum(nil)`:
a function of the key and the payload whose digest has `sha256.Size = 32` bytes. -/
structure KeyedHash where
  /-- The digest of `payload` under `key`. -/
  sum : GoString → GoString → List UInt8
  /-- The digest size. -/
  size_eq : ∀ key payload, (sum key payload).length = 32

/-- A keyed hash with small digests to evaluate the definitions on: byte `i` of the digest
is `7 * len(key) + 13 * len(payload) + 37 * i` modulo 256. -/
def sampleHash : KeyedHash where
  sum key payload :=
    (List.range 32).map fun i => UInt8.ofNat (7 * key.length + 13 * payload.length + 37 * i)
  size_eq _ _ := by simp

/-- The table `hextable` of `encoding/hex`. -/
def hextable : GoString := str "0123456789abcdef"

/-- The function `hex.EncodeToString`: two table characters per byte, high nibble first. -/
def hexEncodeToString (src : List UInt8) : GoString :=
  src.flatMap fun v => [hextable.getD (v.toNat / 16) 0, hextable.getD (v.toNat % 16) 0]

/-- The function `strings.HasPrefix`. -/
def hasPrefix (s p : GoString) : Bool := p.isPrefixOf s

/-- The ways `GenerateDeterministicCVC` can fail to return a CVC. -/
inductive CVCFailure
  /-- The returned error "secret is required for CVC generation". -/
  | secretRequired
  /-- A run-time panic: index or slice bound out of range. -/
  | runtimePanic
  deriving DecidableEq, Repr

/-- The loop `for _, char := range hexHash` of `GenerateDeterministicCVC`: the characters
still to scan and the value of `numericDigits`; returns `numericDigits` at loop exit. -/
def numericScan (cvcLength : Nat) : List UInt8 → GoString → GoString
  | [], numericDigits => numericDigits
  | char :: rest, numericDigits =>
    if 48 ≤ char.toNat ∧ char.toNat ≤ 57 then
      let numericDigits := numericDigits ++ [char]
      if numericDigits.length = cvcLength then numericDigits
      else numericScan cvcLength rest numericDigits
    else numericScan cvcLength rest numericDigits

/-- The fallback loop `for i := 0; i < cvcLength; i++` of `GenerateDeterministicCVC`: the
first argument counts the iterations left, then `i` and `numericDigits`. -/
def fallbackLoop (hash : List UInt8) : Nat → Nat → GoString → Except CVCFailure GoString
  | 0, _, numericDigits => .ok numericDigits
  | left + 1, i, numericDigits =>
    match hash[i]? with
    | none => .error .runtimePanic
    | some b =>
      let digit := b.toNat % 10
      fallbackLoop hash left (i + 1) (numericDigits ++ itoaNat digit)

/-- The payload `fmt.Sprintf("%s|%s|%s|%s", bin6, last4, expMonth, expYear)` that
`GenerateDeterministicCVC` hashes. -/
def cvcPayload (pan expMonth expYear : GoString) : GoString :=
  let bin6 := if pan.length ≥ 6 then pan.take 6 else pan
  let last4 := if pan.length ≥ 4 then pan.drop (pan.length - 4) else pan
  bin6 ++ [124] ++ last4 ++ [124] ++ expMonth ++ [124] ++ expYear

/-- The CVC length `GenerateDeterministicCVC` selects from the PAN. -/
def cvcLengthOf (pan : GoString) : Nat :=
  if pan.length = 15 ∧ (hasPrefix pan (str "34") ∨ hasPrefix pan (str "37")) then 4 else 3

/-- The function `GenerateDeterministicCVC`. -/
def GenerateDeterministicCVC (hmac : KeyedHash) (pan expMonth expYear secret : GoString) :
    Except CVCFailure GoString :=
  if secret = [] then .error .secretRequired
  else
    let payload := cvcPayload pan expMonth expYear
    let hash := hmac.sum secret payload
    let hexHash := hexEncodeToString hash
    let cvcLength := cvcLengthOf pan
    let numericDigits := numericScan cvcLength hexHash []
    let afterFallback :=
      if numericDigits.length < cvcLength then fallbackLoop hash cvcLength 0 numericDigits
      else .ok numericDigits
    match afterFallback with
    | .error e => .error e
    | .ok numericDigits =>
      if cvcLength ≤ numericDigits.length then .ok (numericDigits.take cvcLength)
      else .error .runtimePanic

/-! ## models/card.go and transformer.go -/

/-- The struct `models.Order`. -/
structure Order where
  ID : GoString
  PAN : GoString
  ExpiryMonth : Int
  ExpiryYear : Int
  CVC : GoString
  Amount : Int
  Currency : GoString
  Metadata : List (GoString × GoString)
  deriving DecidableEq

/-- The struct `models.TransformOptions`. -/
structure TransformOptions where
  InputPath : GoString
  OutputPath : GoString
  Secret : GoString
  deriving DecidableEq

/-- The ways `TransformOrders` can fail. -/
inductive TransformError
  /-- The text "secret is required for CVC generation". -/
  | secretRequired
  /-- The text "failed to read orders: ..." -/
  | readFailed
  /-- The text "failed to generate CVC for order <id>: ..." -/
  | cvcFailed (orderID : GoString)
  /-- The text "failed to write orders: ..." -/
  | writeFailed
  /-- A run-time panic raised inside the loop. -/
  | runtimePanic
  deriving DecidableEq

/-- The loop `for i := range orders` of `TransformOrders`, on the orders from index `i` on:
the resulting slice, or the failure that ends the function. -/
def transformLoop (hmac : KeyedHash) (secret : GoString) :
    List Order → Except TransformError (List Order)
  | [] => .ok []
  | order :: rest =>
    if order.CVC ≠ [] then
      (transformLoop hmac secret rest).map (order :: ·)
    else
      match GenerateDeterministicCVC hmac order.PAN (sprintf02d order.ExpiryMonth)
          (Itoa order.ExpiryYear) secret with
      | .error .runtimePanic => .error .runtimePanic
      | .error _ => .error (.cvcFailed order.ID)
      | .ok cvc => (transformLoop hmac secret rest).map ({ order with CVC := cvc } :: ·)

/-- An observable file-system action. -/
inductive IOEvent
  /-- The call `os.Open(path)` succeeded and the file was read. -/
  | opened (path : GoString)
  /-- The call `os.Create(path)` succeeded and `data` was written. -/
  | created (path : GoString) (data : GoString)
  deriving DecidableEq

/-- The state outside the process: the files, which paths can be created, and the trace of
file-system actions performed so far. -/
structure World where
  files : GoString → Option GoString
  creatable : GoString → Bool
  trace : List IOEvent

/-- The package `encoding/json` on order lists, kept abstract. -/
structure JSONCodec where
  /-- The call `json.Unmarshal(data, &orders)`; `none` when it returns an error. -/
  unmarshal : GoString → Option (List Order)
  /-- The loop of `decoder.Decode(&order)` until `io.EOF`; `none` on a decoding error. -/
  decodeStream : GoString → Option (List Order)
  /-- The indented `encoder.Encode(orders)`. -/
  encodeIndent : List Order → GoString

/-- The function `ReadOrders`. -/
def ReadOrders (codec : JSONCodec) (path : GoString) (w : World) :
    Option (List Order) × World :=
  match w.files path with
  | none => (none, w)
  | some data =>
    let w := { w with trace := w.trace ++ [.opened path] }
    match codec.unmarshal data with
    | some orders => (some orders, w)
    | none =>
      match codec.decodeStream data with
      | none => (none, w)
      | some orders => (some orders, w)

/-- The function `WriteOrders`; `false` when it returns an error. -/
def WriteOrders (codec : JSONCodec) (path : GoString) (orders : List Order) (w : World) :
    Bool × World :=
  if w.creatable path then
    let data := codec.encodeIndent orders
    (true, { w with
      files := fun p => if p = path then some data else w.files p,
      trace := w.trace ++ [.created path data] })
  else (false, w)

/-- The function `TransformOrders`: the returned error (`none` for `nil`) and the world
after the call. -/
def TransformOrders (codec : JSONCodec) (hmac : KeyedHash) (opts : TransformOptions)
    (w : World) : Option TransformError × World :=
  if opts.Secret = [] then (some .secretRequired, w)
  else
    match ReadOrders codec opts.InputPath w with
    | (none, w) => (some .readFailed, w)
    | (some orders, w) =>
      match transformLoop hmac opts.Secret orders with
      | .error e => (some e, w)
      | .ok orders =>
        match WriteOrders codec opts.OutputPath orders w with
        | (false, w) => (some .writeFailed, w)
        | (true, w) => (none, w)

/-! ## generator.go: Track2, masking and card assembly -/

/-- The function `strings.Repeat` on a one-byte string. -/
def repeatByte (b : UInt8) (count : Nat) : GoString := List.replicate count b

/-- The function `GenerateTrack2`, with the entropy stream passed in and out.  The Go
operator `%` truncates towards zero. -/
def GenerateTrack2 (r : RandReader) (pan : GoString) (month year : Int)
    (serviceCode : GoString) : GoString × RandReader :=
  let yy := Int.tmod year 100
  let expiry := sprintf02d yy ++ sprintf02d month
  let discretionaryLength : Int := 4
  let (discretionary, r) := generateRandomDigits r discretionaryLength
  let track2 := pan ++ [61] ++ expiry ++ serviceCode ++ discretionary
  (track2, r)

/-- The function `MaskPAN`. -/
def MaskPAN (pan : GoString) : GoString :=
  if pan.length < 10 then repeatByte 42 pan.length
  else
    let first6 := pan.take 6
    let last4 := pan.drop (pan.length - 4)
    first6 ++ repeatByte 42 (pan.length - 10) ++ last4

/-- The struct `models.BINRange`. -/
structure BINRange where
  Start : GoString
  End : GoString
  Length : Int
  deriving DecidableEq

/-- The struct `models.CardBrand`. -/
structure CardBrand where
  Name : GoString
  BINRanges : List BINRange
  PANLength : List Int
  CVCLength : Int
  ServiceCode : GoString
  deriving DecidableEq

/-- The map `CardBrands`, as its list of key and value pairs. -/
def CardBrands : List (GoString × CardBrand) :=
  [ (str "visa",
      { Name := str "Visa",
        BINRanges := [{ Start := str "400000", End := str "499999", Length := 16 }],
        PANLength := [13, 16, 19],
        CVCLength := 3,
        ServiceCode := str "201" }),
    (str "mastercard",
      { Name := str "Mastercard",
        BINRanges := [{ Start := str "510000", End := str "559999", Length := 16 },
                      { Start := str "222100", End := str "272099", Length := 16 }],
        PANLength := [16],
        CVCLength := 3,
        ServiceCode := str "201" }),
    (str "amex",
      { Name := str "American Express",
        BINRanges := [{ Start := str "340000", End := str "349999", Length := 15 },
                      { Start := str "370000", End := str "379999", Length := 15 }],
        PANLength := [15],
        CVCLength := 4,
        ServiceCode := str "201" }) ]

/-- The map index expression `CardBrands[key]` with its `ok` flag. -/
def lookupBrand (key : GoString) : Option CardBrand := CardBrands.lookup key

/-- A reading of `time.Now()`: the Unix time in seconds and the calendar year it falls in. -/
structure Time where
  Unix : Int
  Year : Int
  deriving DecidableEq

/-- The wall clock: the readings that successive calls of `time.Now()` will return. -/
abbrev Clock := Nat → Time

/-- The call `time.Now()`: the reading and the advanced clock. -/
def timeNow (c : Clock) : Time × Clock := (c 0, fun i => c (i + 1))

/-- The function `GenerateExpiry`, with entropy stream and clock passed in and out. -/
def GenerateExpiry (r : RandReader) (c : Clock) : (Int × Int) × RandReader × Clock :=
  let (now, c) := timeNow c
  let (monthBig, r) := randInt r 12
  let month : Int := (monthBig : Int) + 1
  let (yearOffsetBig, r) := randInt r 5
  let year : Int := now.Year + (yearOffsetBig : Int) + 1
  ((month, year), r, c)

/-- The struct `models.GenerateOptions`. -/
structure GenerateOptions where
  BIN : GoString
  Brand : GoString
  Count : Int
  Secret : GoString
  IncludeISO : Bool
  IncludeTrack2 : Bool
  Metadata : List (GoString × GoString)
  deriving DecidableEq

/-- The struct `models.Card`. -/
structure Card where
  PAN : GoString
  MaskedPAN : GoString
  Brand : GoString
  ExpiryMonth : Int
  ExpiryYear : Int
  CVC : GoString
  Track2 : GoString
  ISOFields : List (GoString × GoString)
  GeneratedAt : Time
  Metadata : List (GoString × GoString)
  deriving DecidableEq

/-- The ways `GenerateCard` can fail. -/
inductive CardError
  /-- The text "unknown brand: <brand>". -/
  | unknownBrand (brand : GoString)
  /-- The text "failed to generate PAN: ..." -/
  | panFailed (e : PANError)
  /-- The text "failed to generate CVC: ..." -/
  | cvcFailed
  /-- A run-time panic: index out of range. -/
  | runtimePanic
  deriving DecidableEq

/-- The process state `GenerateCard` reads and advances: entropy stream and clock. -/
structure Sys where
  rand : RandReader
  clock : Clock

/-- The function `GenerateCard`.  The function `strings.ToLower` is the parameter `toLower`;
the state is passed in and out. -/
def GenerateCard (toLower : GoString → GoString) (hmac : KeyedHash) (opts : GenerateOptions)
    (s : Sys) : Except CardError Card × Sys :=
  match lookupBrand (toLower opts.Brand) with
  | none => (.error (.unknownBrand opts.Brand), s)
  | some brandConfig =>
    -- bin := opts.BIN; if bin == "" { bin = brandConfig.BINRanges[0].Start }
    let binR : Option GoString :=
      if opts.BIN = [] then (brandConfig.BINRanges[0]?).map (·.Start) else some opts.BIN
    match binR with
    | none => (.error .runtimePanic, s)
    | some bin =>
      -- panLength := brandConfig.PANLength[0]
      match brandConfig.PANLength[0]? with
      | none => (.error .runtimePanic, s)
      | some panLength0 =>
        let panLength :=
          if brandConfig.BINRanges.length > 0 then
            match brandConfig.BINRanges[0]? with
            | some range => range.Length
            | none => panLength0
          else panLength0
        match GeneratePAN s.rand bin panLength with
        | (.error e, r) => (.error (.panFailed e), { s with rand := r })
        | (.ok pan, r) =>
          let ((month, year), r, c) := GenerateExpiry r s.clock
          let cvcR : Except CVCFailure GoString :=
            if opts.Secret ≠ [] then
              GenerateDeterministicCVC hmac pan (sprintf02d month) (Itoa year) opts.Secret
            else .ok []
          match cvcR with
          | .error .runtimePanic => (.error .runtimePanic, { rand := r, clock := c })
          | .error _ => (.error .cvcFailed, { rand := r, clock := c })
          | .ok cvc =>
            let (generatedAt, c) := timeNow c
            let card : Card :=
              { PAN := pan, MaskedPAN := MaskPAN pan, Brand := brandConfig.Name,
                ExpiryMonth := month, ExpiryYear := year, CVC := cvc, Track2 := [],
                ISOFields := [], GeneratedAt := generatedAt, Metadata := opts.Metadata }
            if opts.IncludeTrack2 then
              let (track2, r) := GenerateTrack2 r pan month year brandConfig.ServiceCode
              (.ok { card with Track2 := track2 }, { rand := r, clock := c })
            else (.ok card, { rand := r, clock := c })

/-- Lower-casing of the ASCII letters, on which `strings.ToLower` agrees with it for
strings of ASCII bytes. -/
def asciiToLower (s : GoString) : GoString :=
  s.map fun b => if 65 ≤ b.toNat ∧ b.toNat ≤ 90 then b + 32 else b

/-! ## The keyed hash of the standard library: HMAC over SHA-256 -/

/-- The round constants of SHA-256. -/
def sha256K : List Nat :=
  [0x428a2f98, 0x71374491, 0xb5c0fbcf, 0xe9b5dba5, 0x3956c25b, 0x59f111f1, 0x923f82a4, 0xab1c5ed5,
   0xd807aa98, 0x12835b01, 0x243185be, 0x550c7dc3, 0x72be5d74, 0x80deb1fe, 0x9bdc06a7, 0xc19bf174,
   0xe49b69c1, 0xefbe4786, 0x0fc19dc6, 0x240ca1cc, 0x2de92c6f, 0x4a7484aa, 0x5cb0a9dc, 0x76f988da,
   0x983e5152, 0xa831c66d, 0xb00327c8, 0xbf597fc7, 0xc6e00bf3, 0xd5a79147, 0x06ca6351, 0x14292967,
   0x27b70a85, 0x2e1b2138, 0x4d2c6dfc, 0x53380d13, 0x650a7354, 0x766a0abb, 0x81c2c92e, 0x92722c85,
   0xa2bfe8a1, 0xa81a664b, 0xc24b8b70, 0xc76c51a3, 0xd192e819, 0xd6990624, 0xf40e3585, 0x106aa070,
   0x19a4c116, 0x1e376c08, 0x2748774c, 0x34b0bcb5, 0x391c0cb3, 0x4ed8aa4a, 0x5b9cca4f, 0x682e6ff3,
   0x748f82ee, 0x78a5636f, 0x84c87814, 0x8cc70208, 0x90befffa, 0xa4506ceb, 0xbef9a3f7, 0xc67178f2]

/-- The eight working words of SHA-256. -/
structure SHAState where
  a : Nat
  b : Nat
  c : Nat
  d : Nat
  e : Nat
  f : Nat
  g : Nat
  h : Nat

/-- The initial hash value of SHA-256. -/
def sha256Init : SHAState :=
  ⟨0x6a09e667, 0xbb67ae85, 0x3c6ef372, 0xa54ff53a, 0x510e527f, 0x9b05688c, 0x1f83d9ab, 0x5be0cd19⟩

/-- Rotation of a 32-bit word to the right. -/
def rotr32 (x n : Nat) : Nat := ((x >>> n) ||| (x <<< (32 - n))) % 2 ^ 32

/-- One round of the SHA-256 compression function, for round constant plus schedule word
`kw`. -/
def sha256Round (s : SHAState) (kw : Nat) : SHAState :=
  let s1 := rotr32 s.e 6 ^^^ rotr32 s.e 11 ^^^ rotr32 s.e 25
  let ch := (s.e &&& s.f) ^^^ ((s.e ^^^ (2 ^ 32 - 1)) &&& s.g)
  let t1 := (s.h + s1 + ch + kw) % 2 ^ 32
  let s0 := rotr32 s.a 2 ^^^ rotr32 s.a 13 ^^^ rotr32 s.a 22
  let maj := (s.a &&& s.b) ^^^ (s.a &&& s.c) ^^^ (s.b &&& s.c)
  let t2 := (s0 + maj) % 2 ^ 32
  ⟨(t1 + t2) % 2 ^ 32, s.a, s.b, s.c, (s.d + t1) % 2 ^ 32, s.e, s.f, s.g⟩

/-- The message schedule: the 16 words of the block extended by `n` further words. -/
def sha256Schedule : Nat → List Nat → List Nat
  | 0, w => w
  | n + 1, w =>
    let i := w.length
    let w15 := w.getD (i - 15) 0
    let w2 := w.getD (i - 2) 0
    let s0 := rotr32 w15 7 ^^^ rotr32 w15 18 ^^^ (w15 >>> 3)
    let s1 := rotr32 w2 17 ^^^ rotr32 w2 19 ^^^ (w2 >>> 10)
    sha256Schedule n (w ++ [(w.getD (i - 16) 0 + s0 + w.getD (i - 7) 0 + s1) % 2 ^ 32])

/-- The big-endian 32-bit words of a byte string. -/
def beWords : List UInt8 → List Nat
  | b0 :: b1 :: b2 :: b3 :: rest =>
    (b0.toNat * 2 ^ 24 + b1.toNat * 2 ^ 16 + b2.toNat * 2 ^ 8 + b3.toNat) :: beWords rest
  | _ => []

/-- The compression of one 64-byte block into the chaining value. -/
def sha256Block (s : SHAState) (block : List UInt8) : SHAState :=
  let w := sha256Schedule 48 (beWords block)
  let t := (List.zipWith (fun k x => (k + x) % 2 ^ 32) sha256K w).foldl sha256Round s
  ⟨(s.a + t.a) % 2 ^ 32, (s.b + t.b) % 2 ^ 32, (s.c + t.c) % 2 ^ 32, (s.d + t.d) % 2 ^ 32,
   (s.e + t.e) % 2 ^ 32, (s.f + t.f) % 2 ^ 32, (s.g + t.g) % 2 ^ 32, (s.h + t.h) % 2 ^ 32⟩

/-- The blocks of a padded message, compressed one after the other; the first argument is
the number of blocks. -/
def sha256Blocks : Nat → SHAState → List UInt8 → SHAState
  | 0, s, _ => s
  | n + 1, s, data => sha256Blocks n (sha256Block s (data.take 64)) (data.drop 64)

/-- The big-endian bytes of a word, `n` of them. -/
def beBytes (n : Nat) (x : Nat) : List UInt8 :=
  (List.range n).map fun i => UInt8.ofNat (x >>> (8 * (n - 1 - i)))

/-- The padding of SHA-256: a one bit, zeros up to 56 modulo 64, the bit length. -/
def sha256Pad (msg : List UInt8) : List UInt8 :=
  msg ++ [0x80] ++ List.replicate ((119 - msg.length % 64) % 64) 0 ++ beBytes 8 (8 * msg.length)

/-- The function `sha256.Sum256`. -/
def sha256 (msg : List UInt8) : List UInt8 :=
  let padded := sha256Pad msg
  let s := sha256Blocks (padded.length / 64) sha256Init padded
  beBytes 4 s.a ++ beBytes 4 s.b ++ beBytes 4 s.c ++ beBytes 4 s.d ++
    beBytes 4 s.e ++ beBytes 4 s.f ++ beBytes 4 s.g ++ beBytes 4 s.h

/-- The function HMAC of RFC 2104 over SHA-256, as `crypto/hmac` computes it. -/
def hmacSHA256Sum (key payload : GoString) : List UInt8 :=
  let key := if key.length > 64 then sha256 key else key
  let key := key ++ List.replicate (64 - key.length) 0
  let ipad := key.map fun b => b ^^^ 0x36
  let opad := key.map fun b => b ^^^ 0x5c
  sha256 (opad ++ sha256 (ipad ++ payload))

/-- The keyed hash the code uses: `hmac.New(sha256.New, key)`. -/
def hmacSHA256 : KeyedHash where
  sum := hmacSHA256Sum
  size_eq _ _ := by simp [hmacSHA256Sum, sha256, beBytes]

/-! ## iso8583.go -/

/-- The call `fmt.Sprintf("%0<width>d", n)`: the decimal digits padded on the left with zeros
to `width` characters, a minus sign counting towards the width and standing first. -/
def sprintf0d (width : Nat) (n : Int) : GoString :=
  let digits := itoaNat n.natAbs
  if n < 0 then 45 :: (List.replicate (width - 1 - digits.length) 48 ++ digits)
  else List.replicate (width - digits.length) 48 ++ digits

/-- The type `ISO8583Fields`, a Go map from field number to value: a list of entries with
distinct keys, read with `AList.lookup` and written with `AList.insert`. -/
abbrev ISO8583Fields := AList fun (_ : GoString) => GoString

/-- The method `time.Time.Format`, kept abstract: a reading and a layout to a string. -/
abbrev TimeFormat := Time → GoString → GoString

/-- The function `generateSTAN`, with the clock passed in and out. -/
def generateSTAN (c : Clock) : GoString × Clock :=
  let (now, c) := timeNow c
  (sprintf0d 6 (Int.tmod now.Unix 1000000), c)

/-- The function `generateRRN`, with the clock passed in and out. -/
def generateRRN (format : TimeFormat) (c : Clock) : GoString × Clock :=
  let (now, c) := timeNow c
  (format now (str "060102150405"), c)

/-- The function `GenerateISO8583Fields`, with the clock passed in and out; the entries of
the map literal are written in source order. -/
def GenerateISO8583Fields (format : TimeFormat) (c : Clock) (card : Card) (amount : Int)
    (currency : GoString) : ISO8583Fields × Clock :=
  let (now, c) := timeNow c
  let f2 := card.PAN
  let f4 := sprintf0d 12 amount
  let f7 := format now (str "0102150405")
  let (f11, c) := generateSTAN c
  let f12 := format now (str "150405")
  let f13 := format now (str "0102")
  let f14 := sprintf02d (Int.tmod card.ExpiryYear 100) ++ sprintf02d card.ExpiryMonth
  let (f37, c) := generateRRN format c
  let fields : ISO8583Fields := ∅
  let fields := fields.insert (str "2") f2
  let fields := fields.insert (str "3") (str "000000")
  let fields := fields.insert (str "4") f4
  let fields := fields.insert (str "7") f7
  let fields := fields.insert (str "11") f11
  let fields := fields.insert (str "12") f12
  let fields := fields.insert (str "13") f13
  let fields := fields.insert (str "14") f14
  let fields := fields.insert (str "22") (str "051")
  let fields := fields.insert (str "37") f37
  let fields := fields.insert (str "41") (str "TERM0001")
  let fields := fields.insert (str "42") (str "MERCHANT000001")
  let fields := fields.insert (str "49") currency
  let fields := if card.Track2 ≠ [] then fields.insert (str "35") card.Track2 else fields
  (fields, c)

/-- The struct `AuthorizationRequest`. -/
structure AuthorizationRequest where
  MTI : GoString
  Fields : ISO8583Fields
  Timestamp : Time

/-- The struct `AuthorizationResponse`. -/
structure AuthorizationResponse where
  MTI : GoString
  Fields : ISO8583Fields
  ResponseCode : GoString
  ResponseText : GoString
  AuthCode : GoString
  Timestamp : Time

/-- The function `GenerateMockAuthRequest`, with the clock passed in and out. -/
def GenerateMockAuthRequest (format : TimeFormat) (c : Clock) (card : Card) (amount : Int)
    (currency : GoString) : AuthorizationRequest × Clock :=
  let (fields, c) := GenerateISO8583Fields format c card amount currency
  let (timestamp, c) := timeNow c
  ({ MTI := str "0100", Fields := fields, Timestamp := timestamp }, c)

/-- The function `GenerateMockAuthResponse`.  The request is passed by pointer: the result
holds the response, the request as it is after the call, and the advanced clock.  The loop
`for k, v := range request.Fields` visits the entries of the map once each. -/
def GenerateMockAuthResponse (c : Clock) (request : AuthorizationRequest)
    (responseCode responseText : GoString) :
    AuthorizationResponse × AuthorizationRequest × Clock :=
  let responseFields : ISO8583Fields :=
    request.Fields.foldl (fun acc k v => acc.insert k v) ∅
  let responseFields := responseFields.insert (str "39") responseCode
  let (authCode, c) :=
    if responseCode = str "00" then
      let (now, c) := timeNow c
      (str "AUTH" ++ sprintf0d 6 (Int.tmod now.Unix 1000000), c)
    else (([] : GoString), c)
  let (timestamp, c) := timeNow c
  ({ MTI := str "0110", Fields := responseFields, ResponseCode := responseCode,
     ResponseText := responseText, AuthCode := authCode, Timestamp := timestamp },
    request, c)

/-! ## Specification predicates and sample data -/

/-- What the loop may change in one order: nothing but the CVC, and not even that when a
CVC is present. -/
def frameOK (o o2 : Order) : Prop :=
  o2.ID = o.ID ∧ o2.PAN = o.PAN ∧ o2.ExpiryMonth = o.ExpiryMonth ∧
    o2.ExpiryYear = o.ExpiryYear ∧ o2.Amount = o.Amount ∧ o2.Currency = o.Currency ∧
    o2.Metadata = o.Metadata ∧ (o.CVC ≠ [] → o2 = o)

/-- The value of a decimal digit character. -/
def digitVal (b : UInt8) : Nat := b.toNat - 48

/-- The Luhn doubling of a digit: `2d` if `2d ≤ 9`, else `2d - 9`. -/
def luhnDouble (d : Nat) : Nat := if 2 * d ≤ 9 then 2 * d else 2 * d - 9

/-- The Luhn sum as the specification words it for `ValidateLuhn`: the digit `d` at
0-based distance `k` from the rightmost digit contributes `d` when `k` is even and its
doubling when `k` is odd. -/
def luhnSumSpec (s : GoString) : Nat :=
  (s.reverse.enum.map fun p =>
    if p.1 % 2 = 0 then digitVal p.2 else luhnDouble (digitVal p.2)).sum

/-- The sum as the specification words it for `CalculateLuhnCheckDigit`, with the parity
inverted: doubling when the distance `k` from the rightmost digit is even. -/
def checkSumSpec (s : GoString) : Nat :=
  (s.reverse.enum.map fun p =>
    if p.1 % 2 = 0 then luhnDouble (digitVal p.2) else digitVal p.2).sum

/-- The payload as the specification words it: the first 6 characters of the PAN (the whole
PAN if shorter), the last 4 (the whole PAN if shorter), the month and the year, joined
with `|`. -/
def payloadSpec (pan expMonth expYear : GoString) : GoString :=
  let bin6 := if pan.length < 6 then pan else pan.take 6
  let last4 := if pan.length < 4 then pan else pan.drop (pan.length - 4)
  bin6 ++ str "|" ++ last4 ++ str "|" ++ expMonth ++ str "|" ++ expYear

/-- A number in `0..99` as two zero-padded decimal digits. -/
def twoDigits (n : Int) : GoString :=
  [UInt8.ofNat (48 + n.toNat / 10), UInt8.ofNat (48 + n.toNat % 10)]

/-- The value of the `amex` entry of `CardBrands`. -/
def sampleAmex : CardBrand :=
  { Name := str "American Express",
    BINRanges := [{ Start := str "340000", End := str "349999", Length := 15 },
                  { Start := str "370000", End := str "379999", Length := 15 }],
    PANLength := [15],
    CVCLength := 4,
    ServiceCode := str "201" }

/-- Options asking for one Amex card with CVC and Track2, the brand in mixed case. -/
def sampleOptions : GenerateOptions :=
  { BIN := [], Brand := str "AmEx", Count := 1, Secret := str "k", IncludeISO := false,
    IncludeTrack2 := true, Metadata := [] }

/-- A process state: an entropy stream and a clock in the year 2025. -/
def sampleSys : Sys :=
  { rand := fun i => 3 * i + 1, clock := fun i => ⟨1700000000 + i, 2025⟩ }

/-- The characters of a string that are decimal digits, in left-to-right order. -/
def decimalChars (s : GoString) : GoString :=
  s.filter fun b => decide (48 ≤ b.toNat ∧ b.toNat ≤ 57)

/-- A raw byte reduced modulo 10, as a decimal digit character. -/
def byteMod10 (b : UInt8) : UInt8 := UInt8.ofNat (48 + b.toNat % 10)

/-- A keyed hash whose digest is always `1a ff ff .. ff`: its hexadecimal rendering holds a
single decimal character. -/
def oneDigitHash : KeyedHash where
  sum _ _ := 0x1a :: List.replicate 31 0xff
  size_eq _ _ := by simp

/-- The `w` low decimal digits of `n`, most significant first: the digits of `n / 10`
in `w - 1` places, then the digit `n mod 10`. -/
def fixedWidth : Nat → Nat → GoString
  | 0, _ => []
  | w + 1, n => fixedWidth w (n / 10) ++ [UInt8.ofNat (48 + n % 10)]

/-- The number a string of decimal digits denotes. -/
def decimalValue (s : GoString) : Nat := s.foldl (fun acc b => 10 * acc + (b.toNat - 48)) 0

/-- The CVC as a function of the digest and the CVC length: the first `cvcLength` decimal
characters of the lowercase hexadecimal rendering of the digest when there are that many,
and otherwise what `GenerateDeterministicCVC` returns on its fallback path, the decimal
characters found followed by leading digest bytes reduced modulo 10. -/
def cvcFromDigest (cvcLength : Nat) (hash : List UInt8) : GoString :=
  if cvcLength ≤ (decimalChars (hexEncodeToString hash)).length then
    (decimalChars (hexEncodeToString hash)).take cvcLength
  else
    decimalChars (hexEncodeToString hash) ++
      (hash.take (cvcLength - (decimalChars (hexEncodeToString hash)).length)).map byteMod10

/-- An order that carries a CVC. -/
def sampleOrder1 : Order :=
  { ID := str "o-1", PAN := str "4000000000000002", ExpiryMonth := 12, ExpiryYear := 2027,
    CVC := str "999", Amount := 1000, Currency := str "USD", Metadata := [] }

/-- An order without a CVC. -/
def sampleOrder2 : Order :=
  { ID := str "o-2", PAN := str "340000000000009", ExpiryMonth := 3, ExpiryYear := 2028,
    CVC := [], Amount := 2500, Currency := str "EUR", Metadata := [(str "channel", str "web")] }

/-- Two orders to run the transform on. -/
def sampleOrders : List Order := [sampleOrder1, sampleOrder2]

/-- A JSON codec that decodes every input to `sampleOrders` and encodes to nothing. -/
def sampleCodec : JSONCodec where
  unmarshal _ := some sampleOrders
  decodeStream _ := none
  encodeIndent _ := []

/-- A world holding the input file `orders.json`, in which every path can be created. -/
def sampleWorld : World where
  files p := if p = str "orders.json" then some (str "[]") else none
  creatable _ := true
  trace := []

/-- Options asking for an Amex card on the Visa BIN `400000`. -/
def sampleOverride : GenerateOptions :=
  { BIN := str "400000", Brand := str "amex", Count := 1, Secret := str "k",
    IncludeISO := false, IncludeTrack2 := false, Metadata := [] }

/-- The card `GenerateCard` returns for `sampleOptions` in `sampleSys` under HMAC-SHA256. -/
def sampleCard : Card :=
  { PAN := str "340000147036924", MaskedPAN := str "340000*****6924",
    Brand := str "American Express", ExpiryMonth := 2, ExpiryYear := 2029, CVC := str "0235",
    Track2 := str "340000147036924=29022011470", ISOFields := [],
    GeneratedAt := ⟨1700000001, 2025⟩, Metadata := [] }

/-- A layout-echoing stand-in for `time.Time.Format`, to evaluate the definitions on. -/
def sampleFormat : TimeFormat := fun (_ : Time) (layout : GoString) => layout

/-- A request built for `sampleCard` in `sampleSys`: amount 10000, currency `986`. -/
def sampleRequest : AuthorizationRequest :=
  (GenerateMockAuthRequest sampleFormat sampleSys.clock sampleCard 10000 (str "986")).1

/-! ## Helper lemmas: Luhn arithmetic -/

theorem atoiByte_digit {n : Nat} (hn : n < 10) : atoiByte (UInt8.ofNat (48 + n)) = some n := by
  interval_cases n <;> rfl

theorem itoaNat_digit {n : Nat} (hn : n < 10) : itoaNat n = [UInt8.ofNat (48 + n)] := by
  interval_cases n <;> rfl

theorem Itoa_digit {n : Nat} (hn : n < 10) : Itoa (n : Int) = [UInt8.ofNat (48 + n)] := by
  interval_cases n <;> rfl

theorem luhnLoop_add (l : List UInt8) (s k : Nat) (b : Bool) :
    luhnLoop l (s + k) b = (luhnLoop l s b).map (· + k) := by
  induction l generalizing s b with
  | nil => simp [luhnLoop]
  | cons x xs ih =>
    unfold luhnLoop
    cases hx : atoiByte x with
    | none => simp
    | some d =>
      simp only []
      rw [show ∀ t, s + k + t = (s + t) + k from fun t => by omega]
      exact ih _ _

theorem luhnLoop_isSome (l : List UInt8) (h : allDigits l) (s : Nat) (b : Bool) :
    ∃ t, luhnLoop l s b = some t := by
  induction l generalizing s b with
  | nil => exact ⟨s, rfl⟩
  | cons x xs ih =>
    have hx : 48 ≤ x.toNat ∧ x.toNat ≤ 57 := h x (List.mem_cons_self _ _)
    have hxs : allDigits xs := fun y hy => h y (List.mem_cons_of_mem _ hy)
    unfold luhnLoop
    simp only [atoiByte, hx, and_self, if_true]
    exact ih hxs _ _

theorem allDigits_reverse {l : List UInt8} (h : allDigits l) : allDigits l.reverse :=
  fun b hb => h b (List.mem_reverse.mp hb)

theorem CalculateLuhnCheckDigit_lt (p : GoString) : CalculateLuhnCheckDigit p < 10 := by
  unfold CalculateLuhnCheckDigit
  split <;> omega

/-- Appending the computed check digit to an all-digit partial PAN gives a string whose
validation loop ends on a sum divisible by ten. -/
theorem luhnLoop_append_check (p : GoString) (h : allDigits p) :
    ∃ t, luhnLoop (AppendLuhnCheckDigit p).reverse 0 false = some t ∧ t % 10 = 0 := by
  obtain ⟨S, hS⟩ := luhnLoop_isSome p.reverse (allDigits_reverse h) 0 true
  have hc : CalculateLuhnCheckDigit p = (10 - S % 10) % 10 := by
    simp [CalculateLuhnCheckDigit, hS]
  have hlt := CalculateLuhnCheckDigit_lt p
  refine ⟨S + CalculateLuhnCheckDigit p, ?_, by rw [hc]; omega⟩
  unfold AppendLuhnCheckDigit
  rw [Itoa_digit hlt, List.reverse_append, List.reverse_singleton, List.singleton_append]
  unfold luhnLoop
  simp only [atoiByte_digit hlt, Bool.false_eq_true, if_false, Bool.not_false]
  rw [luhnLoop_add, hS]
  simp

theorem AppendLuhnCheckDigit_length (p : GoString) :
    (AppendLuhnCheckDigit p).length = p.length + 1 := by
  unfold AppendLuhnCheckDigit
  rw [Itoa_digit (CalculateLuhnCheckDigit_lt p)]
  simp

theorem ValidateLuhn_append_check (p : GoString) (h : allDigits p)
    (hlo : 12 ≤ p.length) (hhi : p.length ≤ 18) :
    ValidateLuhn (AppendLuhnCheckDigit p) = true := by
  obtain ⟨t, ht, ht0⟩ := luhnLoop_append_check p h
  have hlen := AppendLuhnCheckDigit_length p
  unfold ValidateLuhn
  rw [if_neg (by omega), ht]
  simp [ht0]

/-! ## Helper lemmas: PAN construction -/

theorem digitByte_toNat {n : Nat} (hn : n < 10) : (UInt8.ofNat (48 + n)).toNat = 48 + n := by
  interval_cases n <;> rfl

theorem allDigits_append {a b : GoString} (ha : allDigits a) (hb : allDigits b) :
    allDigits (a ++ b) := by
  intro x hx
  rcases List.mem_append.mp hx with h | h
  · exact ha x h
  · exact hb x h

theorem generateRandomDigitsLoop_spec (k : Nat) (r : RandReader) (acc : GoString) :
    ∃ ds, (generateRandomDigitsLoop k r acc).1 = acc ++ ds ∧ ds.length = k ∧ allDigits ds := by
  induction k generalizing r acc with
  | zero => exact ⟨[], by simp [generateRandomDigitsLoop], rfl, fun _ h => by simp at h⟩
  | succ k ih =>
    obtain ⟨ds, h1, h2, h3⟩ := ih (randInt r 10).2 (acc ++ [UInt8.ofNat (48 + (randInt r 10).1)])
    refine ⟨UInt8.ofNat (48 + (randInt r 10).1) :: ds, ?_, by simp [h2], ?_⟩
    · simp only [generateRandomDigitsLoop]
      rw [h1]; simp
    · intro x hx
      rcases List.mem_cons.mp hx with h | h
      · have hlt : (randInt r 10).1 < 10 := Nat.mod_lt _ (by decide)
        rw [h, digitByte_toNat hlt]; omega
      · exact h3 x h

theorem generateRandomDigits_spec (r : RandReader) (n : Int) (hn : 0 ≤ n) :
    ∃ ds, (generateRandomDigits r n).1 = ds ∧ (ds.length : Int) = n ∧ allDigits ds := by
  unfold generateRandomDigits
  by_cases h0 : n ≤ 0
  · rw [if_pos h0]
    exact ⟨[], rfl, by simp; omega, fun _ h => by simp at h⟩
  · rw [if_neg h0]
    obtain ⟨ds, h1, h2, h3⟩ := generateRandomDigitsLoop_spec n.toNat r []
    exact ⟨ds, by simpa using h1, by rw [h2]; omega, h3⟩

/-- The success path of `GeneratePAN`: BIN, then the filler digits, then the check digit. -/
theorem GeneratePAN_ok (r : RandReader) (bin : GoString) (length : Int)
    (hbin : 6 ≤ bin.length) (hlo : 13 ≤ length) (hhi : length ≤ 19)
    (hroom : 0 ≤ length - bin.length - 1) :
    ∃ ds, (GeneratePAN r bin length).1 = .ok (AppendLuhnCheckDigit (bin ++ ds)) ∧
      (ds.length : Int) = length - bin.length - 1 ∧ allDigits ds := by
  obtain ⟨ds, h1, h2, h3⟩ := generateRandomDigits_spec r (length - bin.length - 1) hroom
  refine ⟨ds, ?_, h2, h3⟩
  unfold GeneratePAN
  rw [if_neg (by omega), if_neg (by omega)]
  simp only []
  rw [if_neg (by omega), ← h1]

/-- The failure paths of `GeneratePAN`, in the order the guards are tested. -/
theorem GeneratePAN_error (r : RandReader) (bin : GoString) (length : Int) :
    (bin.length < 6 → (GeneratePAN r bin length).1 = .error .binTooShort) ∧
    (6 ≤ bin.length → (length < 13 ∨ length > 19) →
      (GeneratePAN r bin length).1 = .error .invalidLength) ∧
    (6 ≤ bin.length → 13 ≤ length → length ≤ 19 → length - bin.length - 1 < 0 →
      (GeneratePAN r bin length).1 = .error .binTooLong) := by
  refine ⟨fun h => ?_, fun h1 h2 => ?_, fun h1 h2 h3 h4 => ?_⟩
  · unfold GeneratePAN
    rw [if_pos (by omega)]
  · unfold GeneratePAN
    rw [if_neg (by omega), if_pos h2]
  · unfold GeneratePAN
    rw [if_neg (by omega), if_neg (by omega)]
    simp only []
    rw [if_pos h4]

/-- A successful `GeneratePAN` passed all three guards. -/
theorem GeneratePAN_ok_inv (r : RandReader) (bin : GoString) (length : Int) (pan : GoString)
    (h : (GeneratePAN r bin length).1 = .ok pan) :
    6 ≤ bin.length ∧ 13 ≤ length ∧ length ≤ 19 ∧ 0 ≤ length - bin.length - 1 := by
  obtain ⟨e1, e2, e3⟩ := GeneratePAN_error r bin length
  by_cases h1 : bin.length < 6
  · rw [e1 h1] at h; cases h
  by_cases h2 : length < 13 ∨ length > 19
  · rw [e2 (by omega) h2] at h; cases h
  by_cases h3 : length - bin.length - 1 < 0
  · rw [e3 (by omega) (by omega) (by omega) h3] at h; cases h
  omega

/-! ## Helper lemmas: CVC derivation -/

theorem allDigits_nil : allDigits ([] : GoString) := fun _ h => by simp at h

theorem allDigits_take {l : GoString} (h : allDigits l) (n : Nat) : allDigits (l.take n) :=
  fun b hb => h b (List.mem_of_mem_take hb)

theorem numericScan_spec (n : Nat) (l : List UInt8) (acc : GoString)
    (hacc : allDigits acc) (hlt : acc.length < n) :
    allDigits (numericScan n l acc) ∧ (numericScan n l acc).length ≤ n := by
  induction l generalizing acc with
  | nil => exact ⟨hacc, by simp only [numericScan]; omega⟩
  | cons c rest ih =>
    unfold numericScan
    by_cases hc : 48 ≤ c.toNat ∧ c.toNat ≤ 57
    · rw [if_pos hc]
      have hacc2 : allDigits (acc ++ [c]) :=
        allDigits_append hacc (fun x hx => by rw [List.mem_singleton.mp hx]; exact hc)
      simp only []
      by_cases hfull : (acc ++ [c]).length = n
      · rw [if_pos hfull]
        exact ⟨hacc2, by omega⟩
      · rw [if_neg hfull]
        refine ih _ hacc2 ?_
        simp only [List.length_append, List.length_singleton] at hfull ⊢
        omega
    · rw [if_neg hc]
      exact ih acc hacc hlt

theorem fallbackLoop_spec (hash : List UInt8) (left i : Nat) (acc : GoString)
    (h : i + left ≤ hash.length) :
    ∃ ds, fallbackLoop hash left i acc = .ok (acc ++ ds) ∧ ds.length = left ∧ allDigits ds := by
  induction left generalizing i acc with
  | zero => exact ⟨[], by simp [fallbackLoop], rfl, allDigits_nil⟩
  | succ left ih =>
    have hi : i < hash.length := by omega
    have hlt : hash[i].toNat % 10 < 10 := Nat.mod_lt _ (by decide)
    obtain ⟨ds, h1, h2, h3⟩ := ih (i + 1) (acc ++ itoaNat (hash[i].toNat % 10)) (by omega)
    refine ⟨itoaNat (hash[i].toNat % 10) ++ ds, ?_, ?_, ?_⟩
    · unfold fallbackLoop
      rw [List.getElem?_eq_getElem hi]
      simp only []
      rw [h1, List.append_assoc]
    · rw [itoaNat_digit hlt]; simp [h2]
    · refine allDigits_append ?_ h3
      rw [itoaNat_digit hlt]
      intro x hx
      rw [List.mem_singleton.mp hx, digitByte_toNat hlt]
      omega

theorem cvcLengthOf_eq (pan : GoString) :
    cvcLengthOf pan =
      if pan.length = 15 ∧ (str "34" <+: pan ∨ str "37" <+: pan) then 4 else 3 := by
  simp only [cvcLengthOf, hasPrefix, List.isPrefixOf_iff_prefix]

theorem cvcLengthOf_cases (pan : GoString) : cvcLengthOf pan = 3 ∨ cvcLengthOf pan = 4 := by
  unfold cvcLengthOf
  split
  · exact Or.inr rfl
  · exact Or.inl rfl

/-- With a non-empty secret `GenerateDeterministicCVC` returns `cvcLengthOf pan` decimal
digits: neither the error return nor a panic is reachable. -/
theorem GenerateDeterministicCVC_ok (hmac : KeyedHash) (pan expMonth expYear secret : GoString)
    (hs : secret ≠ []) :
    ∃ cvc, GenerateDeterministicCVC hmac pan expMonth expYear secret = .ok cvc ∧
      allDigits cvc ∧ cvc.length = cvcLengthOf pan := by
  have hpos : 0 < cvcLengthOf pan := by
    rcases cvcLengthOf_cases pan with h | h <;> omega
  have hle4 : cvcLengthOf pan ≤ 4 := by
    rcases cvcLengthOf_cases pan with h | h <;> omega
  have hsize := hmac.size_eq secret (cvcPayload pan expMonth expYear)
  obtain ⟨hd, hl⟩ := numericScan_spec (cvcLengthOf pan)
    (hexEncodeToString (hmac.sum secret (cvcPayload pan expMonth expYear))) []
    allDigits_nil hpos
  unfold GenerateDeterministicCVC
  rw [if_neg hs]
  simp only []
  by_cases hshort : (numericScan (cvcLengthOf pan)
      (hexEncodeToString (hmac.sum secret (cvcPayload pan expMonth expYear))) []).length
        < cvcLengthOf pan
  · obtain ⟨ds, h1, h2, h3⟩ := fallbackLoop_spec
      (hmac.sum secret (cvcPayload pan expMonth expYear)) (cvcLengthOf pan) 0
      (numericScan (cvcLengthOf pan)
        (hexEncodeToString (hmac.sum secret (cvcPayload pan expMonth expYear))) [])
      (by omega)
    rw [if_pos hshort, h1]
    simp only []
    rw [if_pos (by rw [List.length_append]; omega)]
    refine ⟨_, rfl, allDigits_take (allDigits_append hd h3) _, ?_⟩
    rw [List.length_take, List.length_append]; omega
  · rw [if_neg hshort]
    simp only []
    rw [if_pos (by omega)]
    refine ⟨_, rfl, allDigits_take hd _, ?_⟩
    rw [List.length_take]; omega

theorem GenerateDeterministicCVC_empty_secret (hmac : KeyedHash)
    (pan expMonth expYear : GoString) :
    GenerateDeterministicCVC hmac pan expMonth expYear [] = .error .secretRequired := by
  unfold GenerateDeterministicCVC
  rw [if_pos rfl]

/-! ## Helper lemmas: the transform loop -/

theorem transformLoop_skip (hmac : KeyedHash) (secret : GoString) (order : Order)
    (rest : List Order) (h : order.CVC ≠ []) :
    transformLoop hmac secret (order :: rest) =
      (transformLoop hmac secret rest).map (order :: ·) := by
  rw [transformLoop, if_pos h]

theorem transformLoop_derive (hmac : KeyedHash) (secret : GoString) (order : Order)
    (rest : List Order) (cvc : GoString) (h : order.CVC = [])
    (hcvc : GenerateDeterministicCVC hmac order.PAN (sprintf02d order.ExpiryMonth)
      (Itoa order.ExpiryYear) secret = .ok cvc) :
    transformLoop hmac secret (order :: rest) =
      (transformLoop hmac secret rest).map ({ order with CVC := cvc } :: ·) := by
  rw [transformLoop, if_neg (by simp [h]), hcvc]

/-- A successful step of the loop on a non-empty slice: the tail was transformed, and the
head was either skipped or given the derived CVC. -/
theorem transformLoop_cons_ok (hmac : KeyedHash) (secret : GoString) (order : Order)
    (rest out : List Order) (h : transformLoop hmac secret (order :: rest) = .ok out) :
    ∃ out2, transformLoop hmac secret rest = .ok out2 ∧
      ((order.CVC ≠ [] ∧ out = order :: out2) ∨
        (order.CVC = [] ∧ ∃ cvc, GenerateDeterministicCVC hmac order.PAN
          (sprintf02d order.ExpiryMonth) (Itoa order.ExpiryYear) secret = .ok cvc ∧
          out = { order with CVC := cvc } :: out2)) := by
  by_cases hc : order.CVC ≠ []
  · rw [transformLoop_skip hmac secret order rest hc] at h
    cases hr : transformLoop hmac secret rest with
    | error e => rw [hr] at h; cases h
    | ok out2 =>
      rw [hr] at h
      injection h with h
      exact ⟨out2, rfl, Or.inl ⟨hc, h.symm⟩⟩
  · have hc2 : order.CVC = [] := by simpa using hc
    cases hg : GenerateDeterministicCVC hmac order.PAN (sprintf02d order.ExpiryMonth)
        (Itoa order.ExpiryYear) secret with
    | error e =>
      rw [transformLoop, if_neg hc, hg] at h
      cases e <;> cases h
    | ok cvc =>
      rw [transformLoop_derive hmac secret order rest cvc hc2 hg] at h
      cases hr : transformLoop hmac secret rest with
      | error e => rw [hr] at h; cases h
      | ok out2 =>
        rw [hr] at h
        injection h with h
        exact ⟨out2, rfl, Or.inr ⟨hc2, cvc, rfl, h.symm⟩⟩

theorem transformLoop_idem (hmac : KeyedHash) (secret : GoString) (orders out : List Order)
    (h : transformLoop hmac secret orders = .ok out) :
    transformLoop hmac secret out = .ok out := by
  induction orders generalizing out with
  | nil =>
    rw [transformLoop] at h
    injection h with h
    subst h
    rfl
  | cons order rest ih =>
    obtain ⟨out2, hr, hcase⟩ := transformLoop_cons_ok hmac secret order rest out h
    have ih2 := ih out2 hr
    rcases hcase with ⟨hc, rfl⟩ | ⟨hc, cvc, hg, rfl⟩
    · rw [transformLoop_skip hmac secret order out2 hc, ih2]
      rfl
    · by_cases hcvc : cvc = []
      · subst hcvc
        have hstep := transformLoop_derive hmac secret { order with CVC := [] } out2 [] rfl hg
        rw [hstep, ih2]
        rfl
      · rw [transformLoop_skip hmac secret _ out2 hcvc, ih2]
        rfl

theorem transformLoop_frame (hmac : KeyedHash) (secret : GoString) (hs : secret ≠ [])
    (orders : List Order) :
    ∃ out : List Order, transformLoop hmac secret orders = .ok out ∧
      out.length = orders.length ∧ ∀ (i : Nat) (o : Order), orders[i]? = some o → ∃ o2, out[i]? = some o2 ∧ frameOK o o2 := by
  induction orders with
  | nil => exact ⟨[], rfl, rfl, fun i o h => by simp at h⟩
  | cons order rest ih =>
    obtain ⟨out2, hr, hlen, hframe⟩ := ih
    by_cases hc : order.CVC ≠ []
    · refine ⟨order :: out2, ?_, by simp [hlen], ?_⟩
      · rw [transformLoop_skip hmac secret order rest hc, hr]; rfl
      · intro i o hi
        cases i with
        | zero =>
          simp only [List.getElem?_cons_zero, Option.some.injEq] at hi
          subst hi
          exact ⟨order, by simp, rfl, rfl, rfl, rfl, rfl, rfl, rfl, fun _ => rfl⟩
        | succ i =>
          simp only [List.getElem?_cons_succ] at hi ⊢
          exact hframe i o hi
    · have hc2 : order.CVC = [] := by simpa using hc
      obtain ⟨cvc, hg, -, -⟩ := GenerateDeterministicCVC_ok hmac order.PAN
        (sprintf02d order.ExpiryMonth) (Itoa order.ExpiryYear) secret hs
      refine ⟨{ order with CVC := cvc } :: out2, ?_, by simp [hlen], ?_⟩
      · rw [transformLoop_derive hmac secret order rest cvc hc2 hg, hr]; rfl
      · intro i o hi
        cases i with
        | zero =>
          simp only [List.getElem?_cons_zero, Option.some.injEq] at hi
          subst hi
          exact ⟨{ order with CVC := cvc }, by simp, rfl, rfl, rfl, rfl, rfl, rfl, rfl,
            fun h => absurd hc2 h⟩
        | succ i =>
          simp only [List.getElem?_cons_succ] at hi ⊢
          exact hframe i o hi

/-! ## Helper lemmas: the Luhn sum, position by position -/

theorem luhnLoop_none (l : List UInt8) (s : Nat) (b : Bool)
    (h : ∃ x ∈ l, ¬ (48 ≤ x.toNat ∧ x.toNat ≤ 57)) : luhnLoop l s b = none := by
  induction l generalizing s b with
  | nil => obtain ⟨x, hx, -⟩ := h; simp at hx
  | cons y ys ih =>
    unfold luhnLoop
    by_cases hy : 48 ≤ y.toNat ∧ y.toNat ≤ 57
    · simp only [atoiByte, hy, and_self, if_true]
      apply ih
      obtain ⟨x, hx, hnd⟩ := h
      rcases List.mem_cons.mp hx with rfl | hx2
      · exact absurd hy hnd
      · exact ⟨x, hx2, hnd⟩
    · simp only [atoiByte, hy, if_false]

theorem not_decide_odd (n : Nat) : (!decide (n % 2 = 1)) = decide ((n + 1) % 2 = 1) := by
  rcases Nat.mod_two_eq_zero_or_one n with h | h
  · have h2 : (n + 1) % 2 = 1 := by omega
    simp [h, h2]
  · have h2 : (n + 1) % 2 = 0 := by omega
    simp [h, h2]

/-- The loop started at distance `n` from the right, with `isSecond` set exactly when `n`
is odd, adds the weighted digits of the specification. -/
theorem luhnLoop_enumFrom (l : List UInt8) (h : allDigits l) (n acc : Nat) :
    luhnLoop l acc (decide (n % 2 = 1)) =
      some (acc + ((l.enumFrom n).map fun p =>
        if p.1 % 2 = 0 then digitVal p.2 else luhnDouble (digitVal p.2)).sum) := by
  induction l generalizing n acc with
  | nil => simp [luhnLoop]
  | cons x xs ih =>
    have hx : 48 ≤ x.toNat ∧ x.toNat ≤ 57 := h x (List.mem_cons_self _ _)
    have hxs : allDigits xs := fun y hy => h y (List.mem_cons_of_mem _ hy)
    unfold luhnLoop
    simp only [atoiByte, hx, and_self, if_true]
    rw [not_decide_odd, ih hxs]
    simp only [List.enumFrom_cons, List.map_cons, List.sum_cons, digitVal, luhnDouble]
    congr 1
    rcases Nat.mod_two_eq_zero_or_one n with hn | hn
    · simp only [hn]
      simp
      omega
    · simp only [hn]
      simp
      split <;> split <;> omega

theorem enumFrom_shift_sum (l : List UInt8) (n : Nat) :
    ((l.enumFrom (n + 1)).map fun p =>
        if p.1 % 2 = 0 then digitVal p.2 else luhnDouble (digitVal p.2)).sum =
      ((l.enumFrom n).map fun p =>
        if p.1 % 2 = 0 then luhnDouble (digitVal p.2) else digitVal p.2).sum := by
  induction l generalizing n with
  | nil => rfl
  | cons x xs ih =>
    simp only [List.enumFrom_cons, List.map_cons, List.sum_cons]
    rw [ih (n + 1)]
    congr 1
    rcases Nat.mod_two_eq_zero_or_one n with hn | hn
    · have h2 : (n + 1) % 2 = 1 := by omega
      simp [hn, h2]
    · have h2 : (n + 1) % 2 = 0 := by omega
      simp [hn, h2]

theorem luhnLoop_validate_spec (s : GoString) (h : allDigits s) :
    luhnLoop s.reverse 0 false = some (luhnSumSpec s) := by
  have := luhnLoop_enumFrom s.reverse (allDigits_reverse h) 0 0
  simpa [luhnSumSpec, List.enum] using this

theorem luhnLoop_check_spec (s : GoString) (h : allDigits s) :
    luhnLoop s.reverse 0 true = some (checkSumSpec s) := by
  have := luhnLoop_enumFrom s.reverse (allDigits_reverse h) 1 0
  rw [enumFrom_shift_sum] at this
  simpa [checkSumSpec, List.enum] using this

/-! ## Helper lemmas: what the transform loop writes -/

theorem transformLoop_cvc (hmac : KeyedHash) (secret : GoString) (hs : secret ≠ [])
    (orders : List Order) :
    ∃ out : List Order, transformLoop hmac secret orders = .ok out ∧
      ∀ (i : Nat) (o : Order), orders[i]? = some o →
        ∃ o2, out[i]? = some o2 ∧ o2.CVC ≠ [] ∧
          (o.CVC = [] → GenerateDeterministicCVC hmac o.PAN (sprintf02d o.ExpiryMonth)
            (Itoa o.ExpiryYear) secret = .ok o2.CVC) := by
  induction orders with
  | nil => exact ⟨[], rfl, fun i o h => by simp at h⟩
  | cons order rest ih =>
    obtain ⟨out2, hr, hcvc⟩ := ih
    by_cases hc : order.CVC ≠ []
    · refine ⟨order :: out2, ?_, ?_⟩
      · rw [transformLoop_skip hmac secret order rest hc, hr]; rfl
      · intro i o hi
        cases i with
        | zero =>
          simp only [List.getElem?_cons_zero, Option.some.injEq] at hi
          subst hi
          exact ⟨order, by simp, hc, fun h => absurd h hc⟩
        | succ i =>
          simp only [List.getElem?_cons_succ] at hi ⊢
          exact hcvc i o hi
    · have hc2 : order.CVC = [] := by simpa using hc
      obtain ⟨cvc, hg, -, hlen⟩ := GenerateDeterministicCVC_ok hmac order.PAN
        (sprintf02d order.ExpiryMonth) (Itoa order.ExpiryYear) secret hs
      have hne : cvc ≠ [] := by
        intro h0
        rw [h0] at hlen
        rcases cvcLengthOf_cases order.PAN with h | h <;> rw [h] at hlen <;> simp at hlen
      refine ⟨{ order with CVC := cvc } :: out2, ?_, ?_⟩
      · rw [transformLoop_derive hmac secret order rest cvc hc2 hg, hr]; rfl
      · intro i o hi
        cases i with
        | zero =>
          simp only [List.getElem?_cons_zero, Option.some.injEq] at hi
          subst hi
          exact ⟨{ order with CVC := cvc }, by simp, hne, fun _ => hg⟩
        | succ i =>
          simp only [List.getElem?_cons_succ] at hi ⊢
          exact hcvc i o hi

/-! ## Helper lemmas: Track2 and card assembly -/

theorem sprintf02d_twoDigits (n : Int) (h0 : 0 ≤ n) (h1 : n < 100) :
    sprintf02d n = twoDigits n := by
  obtain ⟨k, rfl⟩ := Int.eq_ofNat_of_zero_le h0
  have hk : k < 100 := by omega
  interval_cases k <;> rfl

theorem generateRandomDigits_four (r : RandReader) :
    ∃ d, (generateRandomDigits r 4).1 = d ∧ d.length = 4 ∧ allDigits d := by
  obtain ⟨d, h1, h2, h3⟩ := generateRandomDigits_spec r 4 (by decide)
  exact ⟨d, h1, by exact_mod_cast h2, h3⟩

theorem GenerateTrack2_eq (r : RandReader) (pan : GoString) (month year : Int)
    (serviceCode : GoString) :
    (GenerateTrack2 r pan month year serviceCode).1 =
      pan ++ [61] ++ (sprintf02d (Int.tmod year 100) ++ sprintf02d month) ++ serviceCode ++
        (generateRandomDigits r 4).1 := by
  rfl

/-- A successful `GeneratePAN` on an all-digit BIN returns a Luhn-valid PAN that starts with
the BIN and has the requested length. -/
theorem GeneratePAN_ok_props (r : RandReader) (bin : GoString) (length : Int)
    (hd : allDigits bin) (hbin : 6 ≤ bin.length) (hlo : 13 ≤ length) (hhi : length ≤ 19)
    (hroom : 0 ≤ length - bin.length - 1) :
    ∃ pan, (GeneratePAN r bin length).1 = .ok pan ∧ ValidateLuhn pan = true ∧
      bin <+: pan ∧ (pan.length : Int) = length := by
  obtain ⟨ds, h1, h2, h3⟩ := GeneratePAN_ok r bin length hbin hlo hhi hroom
  have hlen : ((bin ++ ds).length : Int) = length - 1 := by
    rw [List.length_append]; push_cast; omega
  refine ⟨_, h1, ?_, ?_, ?_⟩
  · exact ValidateLuhn_append_check (bin ++ ds) (allDigits_append hd h3) (by omega) (by omega)
  · unfold AppendLuhnCheckDigit
    rw [List.append_assoc]
    exact List.prefix_append _ _
  · rw [AppendLuhnCheckDigit_length]
    push_cast; omega

/-- With the brand found, no BIN override and a PAN generated for the first BIN range,
`GenerateCard` returns a card carrying that PAN. -/
theorem GenerateCard_ok_pan (toLower : GoString → GoString) (hmac : KeyedHash)
    (opts : GenerateOptions) (s : Sys) (cfg : CardBrand) (first : BINRange) (p0 : Int)
    (hl : lookupBrand (toLower opts.Brand) = some cfg)
    (hr : cfg.BINRanges[0]? = some first) (hp : cfg.PANLength[0]? = some p0)
    (hbin : opts.BIN = []) (pan : GoString)
    (hpan : (GeneratePAN s.rand first.Start first.Length).1 = .ok pan) :
    ∃ card, (GenerateCard toLower hmac opts s).1 = .ok card ∧ card.PAN = pan := by
  have hlen : cfg.BINRanges.length > 0 := by
    cases hc : cfg.BINRanges with
    | nil => rw [hc] at hr; simp at hr
    | cons a t => simp
  unfold GenerateCard
  simp only [hl, hbin, hr, hp, hlen, if_true, Option.map_some']
  rcases hgp : GeneratePAN s.rand first.Start first.Length with ⟨res, r2⟩
  rw [hgp] at hpan
  simp only at hpan
  subst hpan
  simp only [GenerateExpiry, timeNow, randInt]
  by_cases hsec : opts.Secret = []
  · simp only [hsec, ne_eq, not_true_eq_false, if_false]
    split <;> exact ⟨_, rfl, rfl⟩
  · obtain ⟨cvc, hcvc, -, -⟩ := GenerateDeterministicCVC_ok hmac pan
      (sprintf02d (((r2 0 % 12 : Nat) : Int) + 1))
      (Itoa ((s.clock 0).Year + ((r2 (0 + 1) % 5 : Nat) : Int) + 1)) opts.Secret hsec
    simp only [ne_eq, hsec, not_false_eq_true, if_true, hcvc]
    split <;> exact ⟨_, rfl, rfl⟩

/-- Every entry of `CardBrands` has one of the three registered keys, a first BIN range
with a six-digit start and a length in `[13, 19]`, and a non-empty list of PAN lengths. -/
theorem lookupBrand_some (key : GoString) (cfg : CardBrand) (h : lookupBrand key = some cfg) :
    ∃ (first : BINRange) (p0 : Int),
      (key = str "visa" ∨ key = str "mastercard" ∨ key = str "amex") ∧
      cfg.BINRanges[0]? = some first ∧ cfg.PANLength[0]? = some p0 ∧
      allDigits first.Start ∧ first.Start.length = 6 ∧
      13 ≤ first.Length ∧ first.Length ≤ 19 := by
  unfold lookupBrand CardBrands at h
  simp only [List.lookup] at h
  split at h
  · rename_i hk
    injection h with h
    subst h
    exact ⟨_, _, Or.inl (eq_of_beq hk), rfl, rfl, by decide, by decide, by decide, by decide⟩
  · split at h
    · rename_i hk
      injection h with h
      subst h
      exact ⟨_, _, Or.inr (Or.inl (eq_of_beq hk)), rfl, rfl, by decide, by decide, by decide,
        by decide⟩
    · split at h
      · rename_i hk
        injection h with h
        subst h
        exact ⟨_, _, Or.inr (Or.inr (eq_of_beq hk)), rfl, rfl, by decide, by decide, by decide,
          by decide⟩
      · cases h

/-! ## Helper lemmas: evaluation of results -/

theorem ok_of_toOption {ε α : Type} {e : Except ε α} {x : α} (h : e.toOption = some x) :
    e = .ok x := by
  cases e with
  | error _ => simp [Except.toOption] at h
  | ok v =>
    simp only [Except.toOption, Option.some.injEq] at h
    rw [h]

/-- The digest of `abc`, the first example of FIPS 180-4. -/
theorem sha256_abc :
    hexEncodeToString (sha256 (str "abc")) =
      str "ba7816bf8f01cfea414140de5dae2223b00361a396177a9cb410ff61f20015ad" := by
  decide!

/-- Test case 2 of RFC 4231: key `Jefe`, data `what do ya want for nothing?`. -/
theorem hmacSHA256_rfc4231_case2 :
    hexEncodeToString (hmacSHA256.sum (str "Jefe") (str "what do ya want for nothing?")) =
      str "5bdcc146bf60754e6a042426089575c75a003f089d2739839dec58b964ec3843" := by
  decide!
/-! ## Helper lemmas: the digit extraction of the CVC -/

theorem numericScan_eq (n : Nat) (l : List UInt8) (acc : GoString) (hlt : acc.length < n) :
    numericScan n l acc = (acc ++ decimalChars l).take n := by
  induction l generalizing acc with
  | nil =>
    simp only [numericScan, decimalChars, List.filter_nil, List.append_nil]
    rw [List.take_of_length_le (by omega)]
  | cons c rest ih =>
    unfold numericScan
    by_cases hc : 48 ≤ c.toNat ∧ c.toNat ≤ 57
    · have hf : decimalChars (c :: rest) = c :: decimalChars rest := by
        simp [decimalChars, hc]
      rw [if_pos hc, hf]
      simp only []
      have hassoc : acc ++ c :: decimalChars rest = (acc ++ [c]) ++ decimalChars rest := by simp
      by_cases hfull : (acc ++ [c]).length = n
      · rw [if_pos hfull, hassoc, List.take_left' hfull]
      · rw [if_neg hfull, hassoc]
        apply ih
        simp only [List.length_append, List.length_singleton] at hfull ⊢
        omega
    · have hf : decimalChars (c :: rest) = decimalChars rest := by
        simp [decimalChars, hc]
      rw [if_neg hc, hf]
      exact ih acc hlt

theorem fallbackLoop_eq (hash : List UInt8) (left i : Nat) (acc : GoString)
    (h : i + left ≤ hash.length) :
    fallbackLoop hash left i acc = .ok (acc ++ ((hash.drop i).take left).map byteMod10) := by
  induction left generalizing i acc with
  | zero => simp [fallbackLoop]
  | succ left ih =>
    have hi : i < hash.length := by omega
    have hlt : hash[i].toNat % 10 < 10 := Nat.mod_lt _ (by decide)
    unfold fallbackLoop
    rw [List.getElem?_eq_getElem hi]
    simp only []
    rw [ih (i + 1) _ (by omega), itoaNat_digit hlt, List.drop_eq_getElem_cons hi]
    simp only [List.take_succ_cons, List.map_cons, List.append_assoc, List.singleton_append,
      byteMod10]

/-- The value `GenerateDeterministicCVC` returns for a non-empty secret, in terms of the
decimal characters of the rendered digest: the first `cvcLength` of them if there are
enough, and otherwise all of them followed by leading digest bytes reduced modulo 10. -/
theorem GenerateDeterministicCVC_value (hmac : KeyedHash) (pan expMonth expYear secret : GoString)
    (hs : secret ≠ []) :
    GenerateDeterministicCVC hmac pan expMonth expYear secret =
      .ok (if cvcLengthOf pan ≤
            (decimalChars (hexEncodeToString
              (hmac.sum secret (cvcPayload pan expMonth expYear)))).length
        then (decimalChars (hexEncodeToString
              (hmac.sum secret (cvcPayload pan expMonth expYear)))).take (cvcLengthOf pan)
        else decimalChars (hexEncodeToString
              (hmac.sum secret (cvcPayload pan expMonth expYear))) ++
          ((hmac.sum secret (cvcPayload pan expMonth expYear)).take
            (cvcLengthOf pan - (decimalChars (hexEncodeToString
              (hmac.sum secret (cvcPayload pan expMonth expYear)))).length)).map byteMod10) := by
  have hpos : 0 < cvcLengthOf pan := by
    rcases cvcLengthOf_cases pan with h | h <;> omega
  have hle4 : cvcLengthOf pan ≤ 4 := by
    rcases cvcLengthOf_cases pan with h | h <;> omega
  have hsize := hmac.size_eq secret (cvcPayload pan expMonth expYear)
  unfold GenerateDeterministicCVC
  rw [if_neg hs]
  simp only []
  generalize hmac.sum secret (cvcPayload pan expMonth expYear) = hash at hsize ⊢
  rw [numericScan_eq (cvcLengthOf pan) (hexEncodeToString hash) [] hpos, List.nil_append]
  generalize decimalChars (hexEncodeToString hash) = dc
  by_cases hle : cvcLengthOf pan ≤ dc.length
  · have hlen : (dc.take (cvcLengthOf pan)).length = cvcLengthOf pan := by
      rw [List.length_take]; omega
    rw [if_neg (by omega), if_pos hle]
    simp only []
    rw [if_pos (by omega), List.take_take, Nat.min_self]
  · have htake : dc.take (cvcLengthOf pan) = dc := List.take_of_length_le (by omega)
    rw [htake, if_pos (by omega), if_neg hle, fallbackLoop_eq hash _ 0 dc (by omega)]
    simp only []
    rw [if_pos (by
        rw [List.length_append, List.length_map, List.length_take, List.drop_zero]; omega),
      List.drop_zero, List.take_append_eq_append_take, htake, ← List.map_take, List.take_take,
      Nat.min_eq_left (Nat.sub_le _ _)]

/-! ## Helper lemmas: uniqueness of the check digit and single-digit errors -/

/-- Validating `p ++ [c]` adds the value of `c` to the sum the check-digit loop computes
for `p`. -/
theorem luhnLoop_snoc_digit (p : GoString) (c : UInt8) (h : allDigits p)
    (hc : 48 ≤ c.toNat ∧ c.toNat ≤ 57) :
    ∃ S, luhnLoop p.reverse 0 true = some S ∧
      luhnLoop (p ++ [c]).reverse 0 false = some (S + digitVal c) := by
  obtain ⟨S, hS⟩ := luhnLoop_isSome p.reverse (allDigits_reverse h) 0 true
  refine ⟨S, hS, ?_⟩
  rw [List.reverse_append, List.reverse_singleton, List.singleton_append]
  unfold luhnLoop
  simp only [atoiByte, hc, and_self, if_true, Bool.false_eq_true, if_false, Bool.not_false]
  rw [luhnLoop_add, hS]
  simp [digitVal]

theorem digitVal_inj {x y : UInt8} (hx : 48 ≤ x.toNat ∧ x.toNat ≤ 57)
    (hy : 48 ≤ y.toNat ∧ y.toNat ≤ 57) (h : digitVal x = digitVal y) : x = y := by
  unfold digitVal at h
  have : x.toNat = y.toNat := by omega
  exact UInt8.ext_iff.mpr this

theorem luhnWeight_ne (k : Nat) {x y : UInt8} (hx : 48 ≤ x.toNat ∧ x.toNat ≤ 57)
    (hy : 48 ≤ y.toNat ∧ y.toNat ≤ 57) (hne : x ≠ y) :
    (if k % 2 = 0 then digitVal x else luhnDouble (digitVal x)) % 10 ≠
      (if k % 2 = 0 then digitVal y else luhnDouble (digitVal y)) % 10 := by
  have hd : digitVal x ≠ digitVal y := fun h => hne (digitVal_inj hx hy h)
  have hx9 : digitVal x ≤ 9 := by unfold digitVal; omega
  have hy9 : digitVal y ≤ 9 := by unfold digitVal; omega
  unfold luhnDouble
  split
  · omega
  · split <;> split <;> omega

/-- Replacing one byte of the traversal changes the weighted sum by the difference of the
two weights at that distance. -/
theorem weightedSum_replace (B A : List UInt8) (x y : UInt8) (n : Nat) :
    (((B ++ x :: A).enumFrom n).map fun p =>
        if p.1 % 2 = 0 then digitVal p.2 else luhnDouble (digitVal p.2)).sum +
      (if (n + B.length) % 2 = 0 then digitVal y else luhnDouble (digitVal y)) =
    (((B ++ y :: A).enumFrom n).map fun p =>
        if p.1 % 2 = 0 then digitVal p.2 else luhnDouble (digitVal p.2)).sum +
      (if (n + B.length) % 2 = 0 then digitVal x else luhnDouble (digitVal x)) := by
  simp only [List.enumFrom_append, List.enumFrom_cons, List.map_append, List.map_cons,
    List.sum_append, List.sum_cons]
  omega

theorem allDigits_set {p : GoString} (h : allDigits p) (i : Nat) (c : UInt8)
    (hc : 48 ≤ c.toNat ∧ c.toNat ≤ 57) : allDigits (p.set i c) := by
  intro b hb
  rcases List.mem_or_eq_of_mem_set hb with hb | rfl
  · exact h b hb
  · exact hc

theorem ValidateLuhn_set_false (p : GoString) (h : allDigits p) (hv : ValidateLuhn p = true)
    (i : Nat) (hi : i < p.length) (c : UInt8) (hc : 48 ≤ c.toNat ∧ c.toNat ≤ 57)
    (hne : c ≠ p[i]) : ValidateLuhn (p.set i c) = false := by
  have hx : 48 ≤ p[i].toNat ∧ p[i].toNat ≤ 57 := h _ (List.getElem_mem hi)
  have hsplit : p = p.take i ++ p[i] :: p.drop (i + 1) := by
    rw [← List.drop_eq_getElem_cons hi, List.take_append_drop]
  have hset : p.set i c = p.take i ++ c :: p.drop (i + 1) := by
    rw [List.set_eq_take_append_cons_drop, if_pos hi]
  have hsum := weightedSum_replace (p.drop (i + 1)).reverse (p.take i).reverse p[i] c 0
  have hw := luhnWeight_ne (0 + (p.drop (i + 1)).reverse.length) hc hx hne
  have hrev1 : (p.drop (i + 1)).reverse ++ p[i] :: (p.take i).reverse = p.reverse := by
    have e : (p.take i ++ p[i] :: p.drop (i + 1)).reverse = p.reverse := by rw [← hsplit]
    exact (by
      simp only [List.reverse_append, List.reverse_cons, List.append_assoc,
        List.singleton_append] : (p.drop (i + 1)).reverse ++ p[i] :: (p.take i).reverse =
      (p.take i ++ p[i] :: p.drop (i + 1)).reverse).trans e
  have hrev2 : (p.drop (i + 1)).reverse ++ c :: (p.take i).reverse = (p.set i c).reverse := by
    rw [hset]; simp
  rw [hrev1, hrev2] at hsum
  have h1 := luhnLoop_enumFrom p.reverse (allDigits_reverse h) 0 0
  have h2 := luhnLoop_enumFrom (p.set i c).reverse
    (allDigits_reverse (allDigits_set h i c hc)) 0 0
  simp only [Nat.zero_mod, zero_ne_one, decide_False, Nat.zero_add] at h1 h2
  unfold ValidateLuhn at hv ⊢
  rw [List.length_set]
  by_cases hlen : p.length < 13 ∨ p.length > 19
  · rw [if_pos hlen]
  · rw [if_neg hlen] at hv ⊢
    rw [h1] at hv
    rw [h2]
    simp only [beq_iff_eq] at hv ⊢
    simp only [Nat.zero_add] at hsum hw
    generalize ((p.reverse.enumFrom 0).map fun q =>
      if q.1 % 2 = 0 then digitVal q.2 else luhnDouble (digitVal q.2)).sum = S at hv hsum
    generalize (((p.set i c).reverse.enumFrom 0).map fun q =>
      if q.1 % 2 = 0 then digitVal q.2 else luhnDouble (digitVal q.2)).sum = S2 at hsum ⊢
    simp only [beq_eq_false_iff_ne, ne_eq]
    intro h0
    apply hw
    omega

/-! ## Helper lemmas: what the CVC depends on -/

theorem hasPrefix_take (pan p : GoString) (n : Nat) (hp : p.length ≤ n) :
    hasPrefix (pan.take n) p = hasPrefix pan p := by
  unfold hasPrefix
  rw [Bool.eq_iff_iff, List.isPrefixOf_iff_prefix, List.isPrefixOf_iff_prefix,
    List.prefix_iff_eq_take, List.prefix_iff_eq_take, List.take_take, Nat.min_eq_left hp]

theorem cvcLengthOf_congr (pan1 pan2 : GoString) (hlen : pan1.length = pan2.length)
    (hfirst : pan1.take 6 = pan2.take 6) : cvcLengthOf pan1 = cvcLengthOf pan2 := by
  have h34 : hasPrefix pan1 (str "34") = hasPrefix pan2 (str "34") := by
    rw [← hasPrefix_take pan1 (str "34") 6 (by decide), hfirst,
      hasPrefix_take pan2 (str "34") 6 (by decide)]
  have h37 : hasPrefix pan1 (str "37") = hasPrefix pan2 (str "37") := by
    rw [← hasPrefix_take pan1 (str "37") 6 (by decide), hfirst,
      hasPrefix_take pan2 (str "37") 6 (by decide)]
  unfold cvcLengthOf
  rw [hlen, h34, h37]

theorem cvcPayload_congr (pan1 pan2 expMonth expYear : GoString)
    (hlen : pan1.length = pan2.length) (hfirst : pan1.take 6 = pan2.take 6)
    (hlast : pan1.drop (pan1.length - 4) = pan2.drop (pan2.length - 4)) :
    cvcPayload pan1 expMonth expYear = cvcPayload pan2 expMonth expYear := by
  unfold cvcPayload
  by_cases h6 : pan2.length ≥ 6
  · have h4 : pan2.length ≥ 4 := by omega
    rw [hlen] at hlast
    simp only [hlen, h6, h4, if_true, hfirst, hlast]
  · have e1 : pan1 = pan2 := by
      rw [← List.take_of_length_le (show pan1.length ≤ 6 by omega),
        ← List.take_of_length_le (show pan2.length ≤ 6 by omega), hfirst]
    rw [e1]

theorem GenerateDeterministicCVC_congr (hmac : KeyedHash)
    (pan1 pan2 expMonth expYear secret : GoString)
    (hlen : pan1.length = pan2.length) (hfirst : pan1.take 6 = pan2.take 6)
    (hlast : pan1.drop (pan1.length - 4) = pan2.drop (pan2.length - 4)) :
    GenerateDeterministicCVC hmac pan1 expMonth expYear secret =
      GenerateDeterministicCVC hmac pan2 expMonth expYear secret := by
  simp only [GenerateDeterministicCVC,
    cvcPayload_congr pan1 pan2 expMonth expYear hlen hfirst hlast,
    cvcLengthOf_congr pan1 pan2 hlen hfirst]

/-! ## Helper lemmas: the CVC of a generated card -/

/-- The three entries of `CardBrands`, with what the claims need of each: the configured CVC
length, the length of the first BIN range and whether its start is an Amex prefix. -/
theorem lookupBrand_config (key : GoString) (cfg : CardBrand)
    (h : lookupBrand key = some cfg) :
    ∃ (first : BINRange) (p0 : Int),
      cfg.BINRanges[0]? = some first ∧ cfg.PANLength[0]? = some p0 ∧
      (((key = str "visa" ∨ key = str "mastercard") ∧ cfg.CVCLength = 3 ∧ first.Length = 16) ∨
        (key = str "amex" ∧ cfg.CVCLength = 4 ∧ first.Length = 15 ∧
          str "34" <+: first.Start)) := by
  unfold lookupBrand CardBrands at h
  simp only [List.lookup] at h
  split at h
  · rename_i hk
    injection h with h
    subst h
    exact ⟨_, _, rfl, rfl, Or.inl ⟨Or.inl (eq_of_beq hk), rfl, rfl⟩⟩
  · split at h
    · rename_i hk
      injection h with h
      subst h
      exact ⟨_, _, rfl, rfl, Or.inl ⟨Or.inr (eq_of_beq hk), rfl, rfl⟩⟩
    · split at h
      · rename_i hk
        injection h with h
        subst h
        exact ⟨_, _, rfl, rfl, Or.inr ⟨eq_of_beq hk, rfl, rfl, by decide⟩⟩
      · cases h

/-- The outcome of `GenerateCard` once the brand is found, by the outcome of its call of
`GeneratePAN`: a PAN error is passed on, and otherwise a card is returned that carries the
PAN, and the empty CVC or the derived CVC according to the secret. -/
theorem GenerateCard_spec (toLower : GoString → GoString) (hmac : KeyedHash)
    (opts : GenerateOptions) (s : Sys) (cfg : CardBrand) (first : BINRange) (p0 : Int)
    (hl : lookupBrand (toLower opts.Brand) = some cfg)
    (hr : cfg.BINRanges[0]? = some first) (hp : cfg.PANLength[0]? = some p0) :
    (∀ e, (GeneratePAN s.rand (if opts.BIN = [] then first.Start else opts.BIN)
        first.Length).1 = .error e →
      (GenerateCard toLower hmac opts s).1 = .error (.panFailed e)) ∧
    (∀ pan, (GeneratePAN s.rand (if opts.BIN = [] then first.Start else opts.BIN)
        first.Length).1 = .ok pan →
      ∃ card, (GenerateCard toLower hmac opts s).1 = .ok card ∧ card.PAN = pan ∧
        (opts.Secret = [] → card.CVC = []) ∧
        (opts.Secret ≠ [] → GenerateDeterministicCVC hmac card.PAN
          (sprintf02d card.ExpiryMonth) (Itoa card.ExpiryYear) opts.Secret = .ok card.CVC)) := by
  have hlen : cfg.BINRanges.length > 0 := by
    cases hc : cfg.BINRanges with
    | nil => rw [hc] at hr; simp at hr
    | cons a t => simp
  have hbinR : (if opts.BIN = [] then (some first).map (·.Start) else some opts.BIN) =
      some (if opts.BIN = [] then first.Start else opts.BIN) := by
    by_cases hb : opts.BIN = []
    · simp [hb]
    · simp [hb]
  constructor
  · intro e he
    unfold GenerateCard
    simp only [hl, hbinR, hr, hp, hlen, if_true]
    rcases hgp : GeneratePAN s.rand (if opts.BIN = [] then first.Start else opts.BIN)
      first.Length with ⟨res, r2⟩
    rw [hgp] at he
    simp only at he
    subst he
    rfl
  · intro pan hpan
    unfold GenerateCard
    simp only [hl, hbinR, hr, hp, hlen, if_true]
    rcases hgp : GeneratePAN s.rand (if opts.BIN = [] then first.Start else opts.BIN)
      first.Length with ⟨res, r2⟩
    rw [hgp] at hpan
    simp only at hpan
    subst hpan
    simp only [GenerateExpiry, timeNow, randInt]
    by_cases hsec : opts.Secret = []
    · simp only [hsec, ne_eq, not_true_eq_false, if_false]
      split <;> exact ⟨_, rfl, rfl, fun _ => rfl, fun h => h.elim⟩
    · obtain ⟨cvc, hcvc, -, -⟩ := GenerateDeterministicCVC_ok hmac pan
        (sprintf02d (((r2 0 % 12 : Nat) : Int) + 1))
        (Itoa ((s.clock 0).Year + ((r2 (0 + 1) % 5 : Nat) : Int) + 1)) opts.Secret hsec
      simp only [ne_eq, hsec, not_false_eq_true, if_true, hcvc]
      split <;> exact ⟨_, rfl, rfl, fun h => h.elim, fun _ => hcvc⟩

/-- A PAN returned by `GeneratePAN` starts with the BIN and has the requested length. -/
theorem GeneratePAN_shape (r : RandReader) (bin : GoString) (length : Int) (pan : GoString)
    (hok : (GeneratePAN r bin length).1 = .ok pan) :
    bin <+: pan ∧ (pan.length : Int) = length ∧ 6 ≤ bin.length := by
  obtain ⟨hbin, hlo, hhi, hroom⟩ := GeneratePAN_ok_inv r bin length pan hok
  obtain ⟨ds, h1, h2, h3⟩ := GeneratePAN_ok r bin length hbin hlo hhi hroom
  rw [h1] at hok
  injection hok with hpan
  subst hpan
  refine ⟨?_, ?_, hbin⟩
  · unfold AppendLuhnCheckDigit
    rw [List.append_assoc]
    exact List.prefix_append _ _
  · rw [AppendLuhnCheckDigit_length, List.length_append]
    push_cast; omega

/-! ## Helper lemmas: decimal rendering with zero padding -/

theorem toDigitsCore_eq (fuel : Nat) : ∀ (n : Nat) (ds : List Char), n < fuel →
    Nat.toDigitsCore 10 fuel n ds = Nat.toDigits 10 n ++ ds := by
  induction fuel using Nat.strong_induction_on with
  | _ fuel ih =>
    intro n ds hn
    cases fuel with
    | zero => omega
    | succ fuel =>
      unfold Nat.toDigits
      by_cases h0 : n / 10 = 0
      · simp [Nat.toDigitsCore, h0]
      · have hlt : n / 10 < n := by omega
        have e1 := ih fuel (by omega) (n / 10) (Nat.digitChar (n % 10) :: ds) (by omega)
        have e2 := ih n (by omega) (n / 10) [Nat.digitChar (n % 10)] hlt
        simp only [Nat.toDigitsCore, h0, if_false]
        rw [e1, e2]
        simp

theorem toDigits_step (n : Nat) (h : 10 ≤ n) :
    Nat.toDigits 10 n = Nat.toDigits 10 (n / 10) ++ [Nat.digitChar (n % 10)] := by
  have h0 : n / 10 ≠ 0 := by omega
  have hlt : n / 10 < n := by omega
  conv_lhs => unfold Nat.toDigits
  simp only [Nat.toDigitsCore, h0, if_false]
  exact toDigitsCore_eq n (n / 10) _ hlt

theorem digitChar_byte {m : Nat} (hm : m < 10) :
    UInt8.ofNat (Nat.digitChar m).toNat = UInt8.ofNat (48 + m) := by
  interval_cases m <;> rfl

theorem itoaNat_step (n : Nat) (h : 10 ≤ n) :
    itoaNat n = itoaNat (n / 10) ++ [UInt8.ofNat (48 + n % 10)] := by
  unfold itoaNat
  rw [toDigits_step n h, List.map_append, List.map_singleton,
    digitChar_byte (Nat.mod_lt n (by decide))]

theorem fixedWidth_zero (w : Nat) : fixedWidth w 0 = List.replicate w 48 := by
  induction w with
  | zero => rfl
  | succ w ih =>
    simp only [fixedWidth, Nat.zero_div, ih, Nat.zero_mod, Nat.add_zero]
    rw [List.replicate_succ']
    rfl

theorem fixedWidth_length (w n : Nat) : (fixedWidth w n).length = w := by
  induction w generalizing n with
  | zero => rfl
  | succ w ih => simp [fixedWidth, ih]

theorem fixedWidth_allDigits (w n : Nat) : allDigits (fixedWidth w n) := by
  induction w generalizing n with
  | zero => exact allDigits_nil
  | succ w ih =>
    refine allDigits_append (ih (n / 10)) ?_
    intro b hb
    have hlt : n % 10 < 10 := Nat.mod_lt n (by decide)
    rw [List.mem_singleton.mp hb, digitByte_toNat hlt]
    omega

theorem decimalValue_fixedWidth (w n : Nat) (h : n < 10 ^ w) :
    decimalValue (fixedWidth w n) = n := by
  induction w generalizing n with
  | zero => simp at h; subst h; rfl
  | succ w ih =>
    have hq : n / 10 < 10 ^ w := by
      rw [Nat.div_lt_iff_lt_mul (by decide)]
      rw [Nat.pow_succ] at h; exact h
    have hlt : n % 10 < 10 := Nat.mod_lt n (by decide)
    have := ih (n / 10) hq
    unfold decimalValue at this ⊢
    simp only [fixedWidth, List.foldl_append, List.foldl_cons, List.foldl_nil, this,
      digitByte_toNat hlt]
    omega

/-- Zero padding of the decimal rendering to `w ≥ 1` places gives the `w` low digits. -/
theorem pad_itoaNat (w : Nat) : ∀ n : Nat, n < 10 ^ (w + 1) →
    (itoaNat n).length ≤ w + 1 ∧
      List.replicate (w + 1 - (itoaNat n).length) 48 ++ itoaNat n = fixedWidth (w + 1) n := by
  induction w with
  | zero =>
    intro n hn
    have hn10 : n < 10 := by simpa using hn
    rw [itoaNat_digit hn10]
    simp [fixedWidth, Nat.mod_eq_of_lt hn10]
  | succ w ih =>
    intro n hn
    by_cases hn10 : n < 10
    · rw [itoaNat_digit hn10]
      have hdiv : n / 10 = 0 := by omega
      refine ⟨by simp, ?_⟩
      conv_rhs => unfold fixedWidth
      rw [hdiv, fixedWidth_zero, Nat.mod_eq_of_lt hn10]
      simp
    · have hq : n / 10 < 10 ^ (w + 1) := by
        rw [Nat.div_lt_iff_lt_mul (by decide)]
        rw [Nat.pow_succ] at hn; exact hn
      obtain ⟨hlen, hpad⟩ := ih (n / 10) hq
      rw [itoaNat_step n (by omega)]
      refine ⟨by simp; omega, ?_⟩
      conv_rhs => unfold fixedWidth
      rw [← hpad, List.length_append, List.length_singleton, List.append_assoc]
      congr 2
      omega

theorem sprintf0d_fixedWidth (w : Nat) (n : Int) (h0 : 0 ≤ n) (h1 : n < 10 ^ (w + 1)) :
    sprintf0d (w + 1) n = fixedWidth (w + 1) n.toNat ∧
      sprintf0d (w + 1) n = List.replicate (w + 1 - (Itoa n).length) 48 ++ Itoa n := by
  obtain ⟨k, rfl⟩ := Int.eq_ofNat_of_zero_le h0
  have hk : k < 10 ^ (w + 1) := by exact_mod_cast h1
  have hneg : ¬ ((k : Int) < 0) := by omega
  unfold sprintf0d Itoa
  simp only [hneg, if_false, Int.natAbs_ofNat, Int.toNat_ofNat]
  exact ⟨(pad_itoaNat w k hk).2, trivial⟩

/-! ## Helper lemmas: copying a field map -/

theorem lookup_foldl_insert (k : GoString) (l : List (Sigma fun (_ : GoString) => GoString))
    (hl : l.NodupKeys) (acc : ISO8583Fields) :
    (l.foldl (fun d s => d.insert s.1 s.2) acc).lookup k =
      match l.dlookup k with
      | some v => some v
      | none => acc.lookup k := by
  induction l generalizing acc with
  | nil => rfl
  | cons s t ih =>
    obtain ⟨a, b⟩ := s
    rw [List.nodupKeys_cons] at hl
    rw [List.foldl_cons, ih hl.2]
    by_cases hk : k = a
    · subst hk
      have hnone : t.dlookup k = none := List.dlookup_eq_none.mpr hl.1
      rw [hnone, List.dlookup_cons_eq]
      simp only []
      exact AList.lookup_insert acc
    · rw [List.dlookup_cons_ne _ _ hk]
      cases t.dlookup k with
      | some v => rfl
      | none => exact AList.lookup_insert_ne hk

theorem lookup_copy (k : GoString) (m : ISO8583Fields) :
    (m.foldl (fun acc k v => acc.insert k v) (∅ : ISO8583Fields)).lookup k = m.lookup k := by
  have := lookup_foldl_insert k m.entries m.nodupKeys ∅
  unfold AList.foldl
  rw [this]
  show (match List.dlookup k m.entries with | some v => some v | none => none) = _
  cases h : List.dlookup k m.entries with
  | some v => exact (show AList.lookup k m = some v from h).symm
  | none => exact (show AList.lookup k m = none from h).symm

/-! ## Claims -/

/-- C1: for every string `p` of decimal digits with `12 ≤ len(p) ≤ 18`,
`ValidateLuhn(AppendLuhnCheckDigit(p))` is true. -/
theorem C1_append_check_digit_validates (p : GoString) (hdigits : allDigits p)
    (hlo : 12 ≤ p.length) (hhi : p.length ≤ 18) :
    ValidateLuhn (AppendLuhnCheckDigit p) = true :=
  ValidateLuhn_append_check p hdigits hlo hhi

/-- C1 witness: the partial PAN `400000000000000` of the test suite. -/
theorem C1_append_check_digit_validates_witness :
    allDigits (str "400000000000000") ∧ 12 ≤ (str "400000000000000").length ∧
      (str "400000000000000").length ≤ 18 ∧
      ValidateLuhn (AppendLuhnCheckDigit (str "400000000000000")) = true :=
  ⟨by decide, by decide, by decide,
    C1_append_check_digit_validates (str "400000000000000") (by decide) (by decide) (by decide)⟩

/-- For a BIN made only of decimal digits, a PAN returned by `GeneratePAN` satisfies
`ValidateLuhn`, whatever the requested length and the state of the entropy stream. -/
theorem GeneratePAN_validates_of_digits (r : RandReader) (bin : GoString) (length : Int)
    (pan : GoString) (hdigits : allDigits bin)
    (hok : (GeneratePAN r bin length).1 = .ok pan) : ValidateLuhn pan = true := by
  obtain ⟨hbin, hlo, hhi, hroom⟩ := GeneratePAN_ok_inv r bin length pan hok
  obtain ⟨ds, h1, h2, h3⟩ := GeneratePAN_ok r bin length hbin hlo hhi hroom
  rw [h1] at hok
  injection hok with hpan
  subst hpan
  have hlen : ((bin ++ ds).length : Int) = length - 1 := by
    rw [List.length_append]; push_cast; omega
  exact ValidateLuhn_append_check (bin ++ ds) (allDigits_append hdigits h3) (by omega) (by omega)

/-- C2: the code at the failing input `GeneratePAN("abcdef", 16)`: whatever the entropy
stream yields, the call returns without error the BIN, nine filler digits and the check digit
`0`, which is what `CalculateLuhnCheckDigit` returns when `strconv.Atoi` fails on a
character of the partial PAN, and `ValidateLuhn` rejects the returned PAN. -/
theorem C2_nonnumeric_bin_invalid_pan (r : RandReader) :
    ∃ ds : GoString, ds.length = 9 ∧ allDigits ds ∧
      CalculateLuhnCheckDigit (str "abcdef" ++ ds) = 0 ∧
      (GeneratePAN r (str "abcdef") 16).1 = .ok (str "abcdef" ++ ds ++ str "0") ∧
      ValidateLuhn (str "abcdef" ++ ds ++ str "0") = false := by
  obtain ⟨ds, h1, h2, h3⟩ :=
    GeneratePAN_ok r (str "abcdef") 16 (by decide) (by decide) (by decide) (by decide)
  have hlen : ds.length = 9 := by
    have h6 : ((str "abcdef").length : Int) = 6 := by decide
    rw [h6] at h2
    omega
  have hbad : ¬ (48 ≤ (97 : UInt8).toNat ∧ (97 : UInt8).toNat ≤ 57) := by decide
  have hcheck : CalculateLuhnCheckDigit (str "abcdef" ++ ds) = 0 := by
    unfold CalculateLuhnCheckDigit
    rw [luhnLoop_none (str "abcdef" ++ ds).reverse 0 true
      ⟨97, List.mem_reverse.mpr (List.mem_append_left _ (by decide)), hbad⟩]
  have happ : AppendLuhnCheckDigit (str "abcdef" ++ ds) = str "abcdef" ++ ds ++ str "0" := by
    unfold AppendLuhnCheckDigit
    rw [hcheck]
    rfl
  refine ⟨ds, hlen, h3, hcheck, by rw [h1, happ], ?_⟩
  unfold ValidateLuhn
  split
  · rfl
  · rw [luhnLoop_none (str "abcdef" ++ ds ++ str "0").reverse 0 false
      ⟨97, List.mem_reverse.mpr
        (List.mem_append_left _ (List.mem_append_left _ (by decide))), hbad⟩]

/-- C3: a PAN returned by `GeneratePAN(bin, length)` has `bin` as a prefix and has exactly
`length` bytes, for every BIN string, length and state of the entropy stream. -/
theorem C3_generated_pan_shape (r : RandReader) (bin : GoString) (length : Int)
    (pan : GoString) (hok : (GeneratePAN r bin length).1 = .ok pan) :
    bin <+: pan ∧ (pan.length : Int) = length := by
  obtain ⟨hbin, hlo, hhi, hroom⟩ := GeneratePAN_ok_inv r bin length pan hok
  obtain ⟨ds, h1, h2, h3⟩ := GeneratePAN_ok r bin length hbin hlo hhi hroom
  rw [h1] at hok
  injection hok with hpan
  subst hpan
  constructor
  · unfold AppendLuhnCheckDigit
    rw [List.append_assoc]
    exact List.prefix_append _ _
  · rw [AppendLuhnCheckDigit_length, List.length_append]
    push_cast; omega

/-- C3 witness: BIN `340000`, length 15, an entropy stream counting upwards. -/
theorem C3_generated_pan_shape_witness :
    (GeneratePAN (fun i => i) (str "340000") 15).1 = .ok (str "340000012345673") ∧
      str "340000" <+: str "340000012345673" ∧ ((str "340000012345673").length : Int) = 15 :=
  ⟨by rfl, C3_generated_pan_shape (fun i => i) (str "340000") 15 (str "340000012345673") (by rfl)⟩

/-- C4: `GeneratePAN(bin, length)` returns an error exactly when `len(bin) < 6`, or
`length < 13`, or `length > 19`, or `length - len(bin) - 1 < 0`; the error is the
BIN-too-short error whenever `len(bin) < 6`, otherwise the invalid-length error whenever
`length` is outside `[13, 19]`, otherwise the BIN-too-long error; a BIN of exactly
`length - 1` bytes with `13 ≤ length ≤ 19` is accepted. -/
theorem C4_generate_pan_errors (r : RandReader) (bin : GoString) (length : Int) :
    ((∃ e, (GeneratePAN r bin length).1 = .error e) ↔
      ((bin.length : Int) < 6 ∨ length < 13 ∨ length > 19 ∨ length - bin.length - 1 < 0)) ∧
    ((bin.length : Int) < 6 → (GeneratePAN r bin length).1 = .error .binTooShort) ∧
    (¬ (bin.length : Int) < 6 → (length < 13 ∨ length > 19) →
      (GeneratePAN r bin length).1 = .error .invalidLength) ∧
    (¬ (bin.length : Int) < 6 → ¬ (length < 13 ∨ length > 19) → length - bin.length - 1 < 0 →
      (GeneratePAN r bin length).1 = .error .binTooLong) ∧
    (13 ≤ length → length ≤ 19 → (bin.length : Int) = length - 1 →
      ∃ pan, (GeneratePAN r bin length).1 = .ok pan) := by
  obtain ⟨e1, e2, e3⟩ := GeneratePAN_error r bin length
  refine ⟨⟨?_, ?_⟩, fun h => e1 (by omega), fun h1 h2 => e2 (by omega) h2,
    fun h1 h2 h3 => e3 (by omega) (by omega) (by omega) h3, fun h1 h2 h3 => ?_⟩
  · rintro ⟨e, he⟩
    by_contra hcon
    obtain ⟨ds, hds, -, -⟩ :=
      GeneratePAN_ok r bin length (by omega) (by omega) (by omega) (by omega)
    rw [hds] at he
    cases he
  · intro h
    by_cases h1 : bin.length < 6
    · exact ⟨_, e1 h1⟩
    by_cases h2 : length < 13 ∨ length > 19
    · exact ⟨_, e2 (by omega) h2⟩
    exact ⟨_, e3 (by omega) (by omega) (by omega) (by omega)⟩
  · obtain ⟨ds, hds, -, -⟩ :=
      GeneratePAN_ok r bin length (by omega) h1 h2 (by omega)
    exact ⟨_, hds⟩

/-- C5: `GenerateDeterministicCVC` is a function of its four arguments: two calls with
identical arguments return identical results, the same CVC or the same failure.  Nothing is
drawn from the entropy stream or a clock, and the keyed hash enters only through the digest
of the payload under the secret, so the two calls agree as soon as that digest is the same
in both (as it is for a fixed keyed hash). -/
theorem C5_cvc_deterministic (hmac hmac2 : KeyedHash)
    (pan expMonth expYear secret pan2 expMonth2 expYear2 secret2 : GoString)
    (hpan : pan = pan2) (hmonth : expMonth = expMonth2) (hyear : expYear = expYear2)
    (hsecret : secret = secret2)
    (hdigest : hmac.sum secret (cvcPayload pan expMonth expYear) =
      hmac2.sum secret (cvcPayload pan expMonth expYear)) :
    GenerateDeterministicCVC hmac pan expMonth expYear secret =
      GenerateDeterministicCVC hmac2 pan2 expMonth2 expYear2 secret2 := by
  subst hpan hmonth hyear hsecret
  simp only [GenerateDeterministicCVC]
  rw [hdigest]

/-- C5 witness: the arguments of the end-to-end test, with the PAN spelled in two ways. -/
theorem C5_cvc_deterministic_witness :
    GenerateDeterministicCVC sampleHash (str "4000000000000002") (str "12") (str "2027")
        (str "test-secret") =
      GenerateDeterministicCVC sampleHash (str "400000" ++ str "0000000002") (str "12")
        (str "2027") (str "test-secret") :=
  C5_cvc_deterministic sampleHash sampleHash _ _ _ _ _ _ _ _ (by decide) rfl rfl rfl rfl

/-- C6: for every PAN, expiry strings and non-empty secret, and whatever 32-byte digest the
keyed hash yields, `GenerateDeterministicCVC` returns a string of characters `0`..`9` whose
length is 4 when `len(pan) = 15` and the PAN starts with `34` or `37`, and 3 otherwise. -/
theorem C6_cvc_digits_and_length (hmac : KeyedHash) (pan expMonth expYear secret : GoString)
    (hsecret : secret ≠ []) :
    ∃ cvc, GenerateDeterministicCVC hmac pan expMonth expYear secret = .ok cvc ∧
      allDigits cvc ∧
      cvc.length = if pan.length = 15 ∧ (str "34" <+: pan ∨ str "37" <+: pan) then 4 else 3 := by
  obtain ⟨cvc, h1, h2, h3⟩ := GenerateDeterministicCVC_ok hmac pan expMonth expYear secret hsecret
  exact ⟨cvc, h1, h2, by rw [h3, cvcLengthOf_eq]⟩

/-- C6 witness: an Amex-style PAN under the sample hash. -/
theorem C6_cvc_digits_and_length_witness :
    str "k" ≠ [] ∧
    ∃ cvc, GenerateDeterministicCVC sampleHash (str "340000000000009") (str "12") (str "2027")
        (str "k") = .ok cvc ∧ allDigits cvc ∧
      cvc.length = if (str "340000000000009").length = 15 ∧
        (str "34" <+: str "340000000000009" ∨ str "37" <+: str "340000000000009") then 4 else 3 :=
  ⟨by decide, C6_cvc_digits_and_length sampleHash _ _ _ _ (by decide)⟩

/-- C7: `GenerateDeterministicCVC` fails exactly when the secret is the empty string, and
then with the secret-required error; for every non-empty secret it returns a CVC for every
PAN (short and empty ones included), month string and year string. -/
theorem C7_cvc_error_iff_empty_secret (hmac : KeyedHash)
    (pan expMonth expYear secret : GoString) :
    ((∃ e, GenerateDeterministicCVC hmac pan expMonth expYear secret = .error e) ↔ secret = []) ∧
    (secret = [] →
      GenerateDeterministicCVC hmac pan expMonth expYear secret = .error .secretRequired) ∧
    (secret ≠ [] → ∃ cvc, GenerateDeterministicCVC hmac pan expMonth expYear secret = .ok cvc) := by
  refine ⟨⟨?_, ?_⟩, ?_, ?_⟩
  · rintro ⟨e, he⟩
    by_contra hs
    obtain ⟨cvc, h1, -, -⟩ := GenerateDeterministicCVC_ok hmac pan expMonth expYear secret hs
    rw [h1] at he
    cases he
  · rintro rfl
    exact ⟨_, GenerateDeterministicCVC_empty_secret hmac pan expMonth expYear⟩
  · rintro rfl
    exact GenerateDeterministicCVC_empty_secret hmac pan expMonth expYear
  · intro hs
    obtain ⟨cvc, h1, -, -⟩ := GenerateDeterministicCVC_ok hmac pan expMonth expYear secret hs
    exact ⟨cvc, h1⟩

/-- C8: the transform loop of `TransformOrders` is idempotent: running it on the result of a
successful first run returns that result unchanged, so no CVC set by the first run and no
CVC present in the input is changed by a later run.  This holds for every secret for which
the first run succeeds, the non-empty ones in particular. -/
theorem C8_transform_idempotent (hmac : KeyedHash) (secret : GoString)
    (orders out : List Order) (hfirst : transformLoop hmac secret orders = .ok out) :
    transformLoop hmac secret out = .ok out :=
  transformLoop_idem hmac secret orders out hfirst

/-- C8 witness: the sample orders under the sample hash; the second order receives `2348`. -/
theorem C8_transform_idempotent_witness :
    transformLoop sampleHash (str "k") sampleOrders =
        .ok [sampleOrder1, { sampleOrder2 with CVC := str "2348" }] ∧
      transformLoop sampleHash (str "k")
          [sampleOrder1, { sampleOrder2 with CVC := str "2348" }] =
        .ok [sampleOrder1, { sampleOrder2 with CVC := str "2348" }] :=
  ⟨by rfl, C8_transform_idempotent sampleHash (str "k") sampleOrders _ (by rfl)⟩

/-- C9: for every list of orders and every non-empty secret the transform loop yields a list
of the same length, in the same order, in which at every index the fields `ID`, `PAN`,
`ExpiryMonth`, `ExpiryYear`, `Amount`, `Currency` and `Metadata` equal the input's, and
every order whose input CVC was non-empty is entirely unchanged. -/
theorem C9_transform_frame (hmac : KeyedHash) (secret : GoString) (orders : List Order)
    (hsecret : secret ≠ []) :
    ∃ out : List Order, transformLoop hmac secret orders = .ok out ∧
      out.length = orders.length ∧
      ∀ (i : Nat) (o : Order), orders[i]? = some o →
        ∃ o2, out[i]? = some o2 ∧
          o2.ID = o.ID ∧ o2.PAN = o.PAN ∧ o2.ExpiryMonth = o.ExpiryMonth ∧
          o2.ExpiryYear = o.ExpiryYear ∧ o2.Amount = o.Amount ∧ o2.Currency = o.Currency ∧
          o2.Metadata = o.Metadata ∧ (o.CVC ≠ [] → o2 = o) := by
  obtain ⟨out, h1, h2, h3⟩ := transformLoop_frame hmac secret hsecret orders
  exact ⟨out, h1, h2, fun i o hi => h3 i o hi⟩

/-- C9 witness: the sample orders under the sample hash and the secret `k`. -/
theorem C9_transform_frame_witness :
    str "k" ≠ [] ∧
    ∃ out : List Order, transformLoop sampleHash (str "k") sampleOrders = .ok out ∧
      out.length = sampleOrders.length ∧
      ∀ (i : Nat) (o : Order), sampleOrders[i]? = some o →
        ∃ o2, out[i]? = some o2 ∧
          o2.ID = o.ID ∧ o2.PAN = o.PAN ∧ o2.ExpiryMonth = o.ExpiryMonth ∧
          o2.ExpiryYear = o.ExpiryYear ∧ o2.Amount = o.Amount ∧ o2.Currency = o.Currency ∧
          o2.Metadata = o.Metadata ∧ (o.CVC ≠ [] → o2 = o) :=
  ⟨by decide, C9_transform_frame sampleHash (str "k") sampleOrders (by decide)⟩

/-- C10: with an empty secret `TransformOrders` returns the secret-required error before the
input is opened: the world after the call, its files and its trace of file-system actions,
is the world before the call, so nothing was read and nothing was written. -/
theorem C10_transform_empty_secret (codec : JSONCodec) (hmac : KeyedHash)
    (opts : TransformOptions) (w : World) (hsecret : opts.Secret = []) :
    TransformOrders codec hmac opts w = (some .secretRequired, w) := by
  unfold TransformOrders
  rw [if_pos hsecret]

/-- C10 witness: the sample world, whose input file exists and could have been read. -/
theorem C10_transform_empty_secret_witness :
    (TransformOptions.mk (str "orders.json") (str "out.json") []).Secret = [] ∧
      TransformOrders sampleCodec sampleHash
          (TransformOptions.mk (str "orders.json") (str "out.json") []) sampleWorld =
        (some .secretRequired, sampleWorld) :=
  ⟨rfl, C10_transform_empty_secret sampleCodec sampleHash _ sampleWorld rfl⟩

/-- C11: for every list of orders and every non-empty secret the transform loop succeeds, and
every order whose input CVC was empty leaves it with the CVC that `GenerateDeterministicCVC`
returns for the order's PAN, its `ExpiryMonth` formatted with `%02d`, its `ExpiryYear`
formatted with `%d`, and the secret; consequently no order of the output has an empty CVC. -/
theorem C11_transform_fills_cvc (hmac : KeyedHash) (secret : GoString) (orders : List Order)
    (hsecret : secret ≠ []) :
    ∃ out : List Order, transformLoop hmac secret orders = .ok out ∧
      (∀ (i : Nat) (o : Order), orders[i]? = some o → o.CVC = [] →
        ∃ o2, out[i]? = some o2 ∧
          GenerateDeterministicCVC hmac o.PAN (sprintf02d o.ExpiryMonth) (Itoa o.ExpiryYear)
            secret = .ok o2.CVC) ∧
      ∀ o2 ∈ out, o2.CVC ≠ [] := by
  obtain ⟨out, h1, h2⟩ := transformLoop_cvc hmac secret hsecret orders
  obtain ⟨out3, h3, hlen, -⟩ := transformLoop_frame hmac secret hsecret orders
  rw [h1] at h3
  injection h3 with h3
  subst h3
  refine ⟨out, h1, ?_, ?_⟩
  · intro i o hi hempty
    obtain ⟨o2, ho2, -, hg⟩ := h2 i o hi
    exact ⟨o2, ho2, hg hempty⟩
  · intro o2 hmem
    obtain ⟨i, hi, hget⟩ := List.getElem_of_mem hmem
    have hi2 : i < orders.length := by omega
    obtain ⟨o3, ho3, hne, -⟩ := h2 i orders[i] (List.getElem?_eq_getElem hi2)
    rw [List.getElem?_eq_getElem hi, hget] at ho3
    injection ho3 with ho3
    rw [ho3]
    exact hne

/-- C11 witness: the sample orders under the sample hash and the secret `k`. -/
theorem C11_transform_fills_cvc_witness :
    str "k" ≠ [] ∧
    ∃ out : List Order, transformLoop sampleHash (str "k") sampleOrders = .ok out ∧
      (∀ (i : Nat) (o : Order), sampleOrders[i]? = some o → o.CVC = [] →
        ∃ o2, out[i]? = some o2 ∧
          GenerateDeterministicCVC sampleHash o.PAN (sprintf02d o.ExpiryMonth)
            (Itoa o.ExpiryYear) (str "k") = .ok o2.CVC) ∧
      ∀ o2 ∈ out, o2.CVC ≠ [] :=
  ⟨by decide, C11_transform_fills_cvc sampleHash (str "k") sampleOrders (by decide)⟩

/-- C12: `ValidateLuhn` is a total function that returns false for every string shorter than
13 or longer than 19 bytes, and for every string, of any length, that contains a character
other than `0`..`9` at any position. -/
theorem C12_validate_fails_closed (pan : GoString) :
    ((pan.length < 13 ∨ pan.length > 19) → ValidateLuhn pan = false) ∧
    ((∃ (i : Nat) (b : UInt8), pan[i]? = some b ∧ ¬ (48 ≤ b.toNat ∧ b.toNat ≤ 57)) →
      ValidateLuhn pan = false) := by
  constructor
  · intro h
    unfold ValidateLuhn
    rw [if_pos h]
  · rintro ⟨i, b, hget, hnd⟩
    unfold ValidateLuhn
    split
    · rfl
    · have hmem : b ∈ pan.reverse := List.mem_reverse.mpr (List.getElem?_mem hget)
      rw [luhnLoop_none pan.reverse 0 false ⟨b, hmem, hnd⟩]

/-- C13: for every string of decimal digits with length in `[13, 19]`, `ValidateLuhn` returns
true exactly when the Luhn sum of the specification is divisible by 10. -/
theorem C13_validate_iff_luhn_sum (pan : GoString) (hdigits : allDigits pan)
    (hlo : 13 ≤ pan.length) (hhi : pan.length ≤ 19) :
    ValidateLuhn pan = true ↔ luhnSumSpec pan % 10 = 0 := by
  unfold ValidateLuhn
  rw [if_neg (by omega), luhnLoop_validate_spec pan hdigits]
  simp

/-- C13 witness: the valid Visa number of the test suite. -/
theorem C13_validate_iff_luhn_sum_witness :
    allDigits (str "4000000000000002") ∧
      (ValidateLuhn (str "4000000000000002") = true ↔
        luhnSumSpec (str "4000000000000002") % 10 = 0) :=
  ⟨by decide,
    C13_validate_iff_luhn_sum (str "4000000000000002") (by decide) (by decide) (by decide)⟩

/-- C14: for every string `p` of decimal digits, `CalculateLuhnCheckDigit(p)` equals
`(10 - (S mod 10)) mod 10`, where `S` adds the doubling of each digit at even distance from
the rightmost digit of `p` and the plain digit at odd distance; the result is in `0..9`. -/
theorem C14_check_digit_formula (p : GoString) (hdigits : allDigits p) :
    CalculateLuhnCheckDigit p = (10 - checkSumSpec p % 10) % 10 ∧
      CalculateLuhnCheckDigit p ≤ 9 := by
  constructor
  · unfold CalculateLuhnCheckDigit
    rw [luhnLoop_check_spec p hdigits]
  · have := CalculateLuhnCheckDigit_lt p
    omega

/-- C14 witness: the Amex partial PAN of the test suite, check digit 9. -/
theorem C14_check_digit_formula_witness :
    allDigits (str "34000000000000") ∧
      CalculateLuhnCheckDigit (str "34000000000000") =
        (10 - checkSumSpec (str "34000000000000") % 10) % 10 ∧
      CalculateLuhnCheckDigit (str "34000000000000") ≤ 9 :=
  ⟨by decide, C14_check_digit_formula (str "34000000000000") (by decide)⟩

/-- C15: the check digits and completed PANs of the test tables:
`CalculateLuhnCheckDigit` gives 2, 6, 6 and 9 on `400000000000000`, `400000000000`,
`510000000000001` and `34000000000000`, and `AppendLuhnCheckDigit` completes the first
three to `4000000000000002`, `4000000000006` and `5100000000000016`. -/
theorem C15_check_digit_examples :
    CalculateLuhnCheckDigit (str "400000000000000") = 2 ∧
    CalculateLuhnCheckDigit (str "400000000000") = 6 ∧
    CalculateLuhnCheckDigit (str "510000000000001") = 6 ∧
    CalculateLuhnCheckDigit (str "34000000000000") = 9 ∧
    AppendLuhnCheckDigit (str "400000000000000") = str "4000000000000002" ∧
    AppendLuhnCheckDigit (str "400000000000") = str "4000000000006" ∧
    AppendLuhnCheckDigit (str "510000000000001") = str "5100000000000016" := by
  refine ⟨?_, ?_, ?_, ?_, ?_, ?_, ?_⟩ <;> decide

/-- C16: for every PAN, month, year and non-empty secret, `GenerateDeterministicCVC` hashes,
under the key `secret`, the payload of the specification `bin6 | last4 | expMonth | expYear`:
the payload expression of the code equals it, the returned CVC is the digit extraction of
the digest of exactly that payload under `secret`, and so two keyed hashes that agree on
that one digest give the same result. -/
theorem C16_cvc_payload (hmac : KeyedHash) (pan expMonth expYear secret : GoString)
    (hsecret : secret ≠ []) :
    cvcPayload pan expMonth expYear = payloadSpec pan expMonth expYear ∧
    GenerateDeterministicCVC hmac pan expMonth expYear secret =
      .ok (cvcFromDigest (cvcLengthOf pan)
        (hmac.sum secret (payloadSpec pan expMonth expYear))) ∧
    ∀ hmac2 : KeyedHash,
      hmac.sum secret (payloadSpec pan expMonth expYear) =
        hmac2.sum secret (payloadSpec pan expMonth expYear) →
      GenerateDeterministicCVC hmac pan expMonth expYear secret =
        GenerateDeterministicCVC hmac2 pan expMonth expYear secret := by
  have hp : cvcPayload pan expMonth expYear = payloadSpec pan expMonth expYear := by
    have hbar : str "|" = [124] := by decide
    unfold cvcPayload payloadSpec
    rw [hbar]
    by_cases h6 : pan.length < 6 <;> by_cases h4 : pan.length < 4 <;>
      simp [h6, h4, Nat.not_le.mpr, Nat.le_of_not_lt]
  have hval : ∀ h : KeyedHash, GenerateDeterministicCVC h pan expMonth expYear secret =
      .ok (cvcFromDigest (cvcLengthOf pan)
        (h.sum secret (payloadSpec pan expMonth expYear))) := by
    intro h
    rw [GenerateDeterministicCVC_value h pan expMonth expYear secret hsecret, hp]
    rfl
  refine ⟨hp, hval hmac, fun hmac2 hd => ?_⟩
  rw [hval hmac, hval hmac2, hd]

/-- C16 witness: the arguments of the end-to-end test under HMAC-SHA256; the payload is
`400000|0002|12|2027`. -/
theorem C16_cvc_payload_witness :
    str "test-secret" ≠ [] ∧
    payloadSpec (str "4000000000000002") (str "12") (str "2027") = str "400000|0002|12|2027" ∧
    GenerateDeterministicCVC hmacSHA256 (str "4000000000000002") (str "12") (str "2027")
        (str "test-secret") =
      .ok (cvcFromDigest (cvcLengthOf (str "4000000000000002"))
        (hmacSHA256.sum (str "test-secret")
          (payloadSpec (str "4000000000000002") (str "12") (str "2027")))) :=
  ⟨by decide, by decide,
    (C16_cvc_payload hmacSHA256 (str "4000000000000002") (str "12") (str "2027")
      (str "test-secret") (by decide)).2.1⟩

/-- C18: for every string `p`, `MaskPAN(p)` is `len(p)` asterisks if `len(p) < 10`, and
otherwise the first 6 characters of `p`, then `len(p) - 10` asterisks, then the last 4
characters of `p`; the four masks of the test table come out as listed there. -/
theorem C18_mask_pan (p : GoString) :
    (p.length < 10 → MaskPAN p = List.replicate p.length 42) ∧
    (10 ≤ p.length →
      MaskPAN p = p.take 6 ++ List.replicate (p.length - 10) 42 ++ p.drop (p.length - 4)) ∧
    MaskPAN (str "4000000000000002") = str "400000******0002" ∧
    MaskPAN (str "4000000000006") = str "400000***0006" ∧
    MaskPAN (str "340000000000009") = str "340000*****0009" ∧
    MaskPAN (str "123456") = str "******" := by
  refine ⟨fun h => ?_, fun h => ?_, by decide, by decide, by decide, by decide⟩
  · unfold MaskPAN
    rw [if_pos h]; rfl
  · unfold MaskPAN
    rw [if_neg (by omega)]; rfl

/-- C19: for every PAN, service code, month in `1..12`, year `≥ 0` and state of the entropy
stream, `GenerateTrack2` returns `pan`, then `=`, then `year mod 100` as two zero-padded
digits, then the month as two zero-padded digits, then the service code, then exactly four
decimal digits; so the result starts with `pan =` and the service code occupies the
positions from offset `len(pan) + 5` on. -/
theorem C19_track2_format (r : RandReader) (pan serviceCode : GoString) (month year : Int)
    (hmlo : 1 ≤ month) (hmhi : month ≤ 12) (hyear : 0 ≤ year) :
    ∃ d : GoString, d.length = 4 ∧ allDigits d ∧
      (GenerateTrack2 r pan month year serviceCode).1 =
        pan ++ str "=" ++ twoDigits (year % 100) ++ twoDigits month ++ serviceCode ++ d ∧
      pan ++ str "=" <+: (GenerateTrack2 r pan month year serviceCode).1 ∧
      (((GenerateTrack2 r pan month year serviceCode).1.drop (pan.length + 5)).take
        serviceCode.length) = serviceCode := by
  obtain ⟨d, hd, hlen, hdig⟩ := generateRandomDigits_four r
  have heq : str "=" = [61] := by decide
  have hy : Int.tmod year 100 = year % 100 := Int.tmod_eq_emod hyear (by decide)
  have hform : (GenerateTrack2 r pan month year serviceCode).1 =
      pan ++ str "=" ++ twoDigits (year % 100) ++ twoDigits month ++ serviceCode ++ d := by
    rw [GenerateTrack2_eq, hd, hy, heq,
      sprintf02d_twoDigits (year % 100) (by omega) (by omega),
      sprintf02d_twoDigits month (by omega) (by omega)]
    simp
  refine ⟨d, hlen, hdig, hform, ?_, ?_⟩
  · rw [hform]
    exact ⟨twoDigits (year % 100) ++ twoDigits month ++ serviceCode ++ d, by
      simp only [List.append_assoc]⟩
  · rw [hform]
    have h5 : (pan ++ str "=" ++ twoDigits (year % 100) ++ twoDigits month).length =
        pan.length + 5 := by
      simp [heq, twoDigits]
    rw [List.append_assoc _ serviceCode d, ← h5, List.drop_left, List.take_left]

/-- C19 witness: the Visa row of the Track2 test, with a counting entropy stream. -/
theorem C19_track2_format_witness :
    ∃ d : GoString, d.length = 4 ∧ allDigits d ∧
      (GenerateTrack2 (fun i => i) (str "4000000000000002") 12 2027 (str "201")).1 =
        str "4000000000000002" ++ str "=" ++ twoDigits (2027 % 100) ++ twoDigits 12 ++
          str "201" ++ d ∧
      str "4000000000000002" ++ str "=" <+:
        (GenerateTrack2 (fun i => i) (str "4000000000000002") 12 2027 (str "201")).1 ∧
      (((GenerateTrack2 (fun i => i) (str "4000000000000002") 12 2027 (str "201")).1.drop
        ((str "4000000000000002").length + 5)).take (str "201").length) = str "201" :=
  C19_track2_format (fun i => i) (str "4000000000000002") (str "201") 12 2027
    (by decide) (by decide) (by decide)

/-- C20: for every brand registered in `CardBrands` (the lower-cased brand name is `visa`,
`mastercard` or `amex`), with no BIN override and for every state of the entropy stream and
the clock, `GenerateCard` succeeds and returns a card whose PAN satisfies `ValidateLuhn`,
starts with the `Start` of the brand's first BIN range and has the `Length` of that range. -/
theorem C20_generate_card_pan (toLower : GoString → GoString) (hmac : KeyedHash)
    (opts : GenerateOptions) (s : Sys) (cfg : CardBrand)
    (hbrand : lookupBrand (toLower opts.Brand) = some cfg) (hbin : opts.BIN = []) :
    (toLower opts.Brand = str "visa" ∨ toLower opts.Brand = str "mastercard" ∨
      toLower opts.Brand = str "amex") ∧
    ∃ (first : BINRange) (card : Card),
      cfg.BINRanges.head? = some first ∧
      (GenerateCard toLower hmac opts s).1 = .ok card ∧
      ValidateLuhn card.PAN = true ∧ first.Start <+: card.PAN ∧
      (card.PAN.length : Int) = first.Length := by
  obtain ⟨first, p0, hkey, hr, hp, hd, h6, hlo, hhi⟩ :=
    lookupBrand_some (toLower opts.Brand) cfg hbrand
  obtain ⟨pan, hpan, hvalid, hpre, hlen⟩ :=
    GeneratePAN_ok_props s.rand first.Start first.Length hd (by omega) hlo hhi (by omega)
  obtain ⟨card, hcard, hcp⟩ :=
    GenerateCard_ok_pan toLower hmac opts s cfg first p0 hbrand hr hp hbin pan hpan
  refine ⟨hkey, first, card, ?_, hcard, ?_, ?_, ?_⟩
  · rw [← hr]; cases cfg.BINRanges <;> simp
  · rw [hcp]; exact hvalid
  · rw [hcp]; exact hpre
  · rw [hcp]; exact hlen

/-- C20 witness: the brand `AmEx`, lower-cased byte by byte, with no BIN override. -/
theorem C20_generate_card_pan_witness :
    lookupBrand (asciiToLower sampleOptions.Brand) = some sampleAmex ∧
    sampleOptions.BIN = [] ∧
    ∃ (first : BINRange) (card : Card),
      sampleAmex.BINRanges.head? = some first ∧
      (GenerateCard asciiToLower sampleHash sampleOptions sampleSys).1 = .ok card ∧
      ValidateLuhn card.PAN = true ∧ first.Start <+: card.PAN ∧
      (card.PAN.length : Int) = first.Length :=
  ⟨by decide, rfl,
    (C20_generate_card_pan asciiToLower sampleHash sampleOptions sampleSys sampleAmex
      (by decide) rfl).2⟩

/-- C17: with HMAC-SHA256 as the keyed hash, `GenerateDeterministicCVC` on
`4000000000000002`, `12`, `2027` returns `059` under the secret `test-secret`, a string of
three decimal digits, and `241` under `different-secret`, which is a different string. -/
theorem C17_cvc_end_to_end :
    ∃ cvc cvc2 : GoString,
      GenerateDeterministicCVC hmacSHA256 (str "4000000000000002") (str "12") (str "2027")
        (str "test-secret") = .ok cvc ∧
      GenerateDeterministicCVC hmacSHA256 (str "4000000000000002") (str "12") (str "2027")
        (str "different-secret") = .ok cvc2 ∧
      cvc.length = 3 ∧ allDigits cvc ∧ cvc ≠ cvc2 ∧ cvc = str "059" ∧ cvc2 = str "241" :=
  ⟨str "059", str "241", ok_of_toOption (by decide!), ok_of_toOption (by decide!),
    by decide, by decide, by decide, rfl, rfl⟩

/-- C21 counterexample: brand `amex`, configured CVC length 4, with the BIN override
`400000`: `GenerateCard` succeeds under HMAC-SHA256 and the card's CVC has 3 characters. -/
theorem C21_counterexample :
    lookupBrand (asciiToLower sampleOverride.Brand) = some sampleAmex ∧
    sampleAmex.CVCLength = 4 ∧ sampleOverride.Secret ≠ [] ∧
    ((GenerateCard asciiToLower hmacSHA256 sampleOverride sampleSys).1.toOption.map
      fun card => card.CVC.length) = some 3 :=
  ⟨by decide, by decide, by decide, by decide!⟩

/-- C21 (amended): for every `GenerateOptions` with a registered brand and a non-empty secret
for which `GenerateCard` succeeds, the card's CVC has the CVC length configured for the
brand, 3 for visa and mastercard and 4 for amex, provided that for a brand configured with
4 the BIN override is absent or starts with `34` or `37`. -/
theorem C21_card_cvc_length (toLower : GoString → GoString) (hmac : KeyedHash)
    (opts : GenerateOptions) (s : Sys) (cfg : CardBrand) (card : Card)
    (hbrand : lookupBrand (toLower opts.Brand) = some cfg) (hsecret : opts.Secret ≠ [])
    (hok : (GenerateCard toLower hmac opts s).1 = .ok card)
    (hbin : cfg.CVCLength = 4 →
      opts.BIN = [] ∨ str "34" <+: opts.BIN ∨ str "37" <+: opts.BIN) :
    (card.CVC.length : Int) = cfg.CVCLength ∧
    (toLower opts.Brand = str "amex" → cfg.CVCLength = 4) ∧
    (toLower opts.Brand = str "visa" ∨ toLower opts.Brand = str "mastercard" →
      cfg.CVCLength = 3) := by
  obtain ⟨first, p0, hr, hp, hcase⟩ := lookupBrand_config (toLower opts.Brand) cfg hbrand
  obtain ⟨herr, hgood⟩ := GenerateCard_spec toLower hmac opts s cfg first p0 hbrand hr hp
  cases hg : (GeneratePAN s.rand (if opts.BIN = [] then first.Start else opts.BIN)
      first.Length).1 with
  | error e =>
    rw [herr e hg] at hok
    cases hok
  | ok pan =>
    obtain ⟨card2, hcard2, hpan, -, hcvc⟩ := hgood pan hg
    rw [hcard2] at hok
    injection hok with hok
    subst hok
    obtain ⟨hpre, hlen, -⟩ := GeneratePAN_shape _ _ _ _ hg
    obtain ⟨cvc, hcvc2, -, hcl⟩ := GenerateDeterministicCVC_ok hmac card2.PAN
      (sprintf02d card2.ExpiryMonth) (Itoa card2.ExpiryYear) opts.Secret hsecret
    rw [hcvc hsecret] at hcvc2
    injection hcvc2 with hcvc2
    rw [hcvc2, hcl, hpan]
    rcases hcase with ⟨hkey, h3, h16⟩ | ⟨hkey, h4, h15, h34⟩
    · have hne : pan.length ≠ 15 := by omega
      refine ⟨?_, fun ha => ?_, fun _ => h3⟩
      · rw [cvcLengthOf_eq, if_neg (fun h => hne h.1), h3]; rfl
      · rcases hkey with hk | hk <;> rw [hk] at ha <;> exact absurd ha (by decide)
    · have hp15 : pan.length = 15 := by omega
      have hstart : str "34" <+: pan ∨ str "37" <+: pan := by
        by_cases hb : opts.BIN = []
        · rw [if_pos hb] at hpre
          exact Or.inl (h34.trans hpre)
        · rw [if_neg hb] at hpre
          rcases hbin h4 with h | h | h
          · exact absurd h hb
          · exact Or.inl (h.trans hpre)
          · exact Or.inr (h.trans hpre)
      refine ⟨?_, fun _ => h4, fun hv => ?_⟩
      · rw [cvcLengthOf_eq, if_pos ⟨hp15, hstart⟩, h4]; rfl
      · rcases hv with hk | hk <;> rw [hk] at hkey <;> exact absurd hkey (by decide)

/-- C21 witness: the Amex options without BIN override, under HMAC-SHA256. -/
theorem C21_card_cvc_length_witness :
    lookupBrand (asciiToLower sampleOptions.Brand) = some sampleAmex ∧
    sampleOptions.Secret ≠ [] ∧
    (GenerateCard asciiToLower hmacSHA256 sampleOptions sampleSys).1 = .ok sampleCard ∧
    (sampleCard.CVC.length : Int) = sampleAmex.CVCLength :=
  ⟨by decide, by decide, ok_of_toOption (by decide!),
    (C21_card_cvc_length asciiToLower hmacSHA256 sampleOptions sampleSys sampleAmex sampleCard
      (by decide) (by decide) (ok_of_toOption (by decide!)) (fun _ => Or.inl rfl)).1⟩

/-- C22: for every `GenerateOptions` with a registered brand for which PAN generation
succeeds, `GenerateCard` succeeds; the card's CVC is the empty string if the secret is
empty, and otherwise it is the CVC that `GenerateDeterministicCVC` returns for the card's
PAN, its month formatted with `%02d`, its year formatted with `%d`, and the secret. -/
theorem C22_card_cvc_by_secret (toLower : GoString → GoString) (hmac : KeyedHash)
    (opts : GenerateOptions) (s : Sys) (cfg : CardBrand)
    (hbrand : lookupBrand (toLower opts.Brand) = some cfg)
    (hpanok : ∀ e, (GenerateCard toLower hmac opts s).1 ≠ .error (.panFailed e)) :
    ∃ card, (GenerateCard toLower hmac opts s).1 = .ok card ∧
      (opts.Secret = [] → card.CVC = []) ∧
      (opts.Secret ≠ [] → GenerateDeterministicCVC hmac card.PAN
        (sprintf02d card.ExpiryMonth) (Itoa card.ExpiryYear) opts.Secret = .ok card.CVC) := by
  obtain ⟨first, p0, hr, hp, -⟩ := lookupBrand_config (toLower opts.Brand) cfg hbrand
  obtain ⟨herr, hgood⟩ := GenerateCard_spec toLower hmac opts s cfg first p0 hbrand hr hp
  cases hg : (GeneratePAN s.rand (if opts.BIN = [] then first.Start else opts.BIN)
      first.Length).1 with
  | error e => exact absurd (herr e hg) (hpanok e)
  | ok pan =>
    obtain ⟨card, hcard, -, hempty, hcvc⟩ := hgood pan hg
    exact ⟨card, hcard, hempty, hcvc⟩

/-- C22 witness: the Amex options with the secret `k`, under HMAC-SHA256. -/
theorem C22_card_cvc_by_secret_witness :
    lookupBrand (asciiToLower sampleOptions.Brand) = some sampleAmex ∧
    ∃ card, (GenerateCard asciiToLower hmacSHA256 sampleOptions sampleSys).1 = .ok card ∧
      (sampleOptions.Secret = [] → card.CVC = []) ∧
      (sampleOptions.Secret ≠ [] → GenerateDeterministicCVC hmacSHA256 card.PAN
        (sprintf02d card.ExpiryMonth) (Itoa card.ExpiryYear) sampleOptions.Secret =
          .ok card.CVC) :=
  ⟨by decide,
    C22_card_cvc_by_secret asciiToLower hmacSHA256 sampleOptions sampleSys sampleAmex
      (by decide)
      (fun _ h => Except.noConfusion
        ((ok_of_toOption (by decide!) :
          (GenerateCard asciiToLower hmacSHA256 sampleOptions sampleSys).1 =
            .ok sampleCard).symm.trans h))⟩

/-- C23: for every request, response code, response text and clock whose next reading has a
Unix time `t ≥ 0`, `GenerateMockAuthResponse` returns as `AuthCode` the text `AUTH` followed
by the six low decimal digits of `t` (`t mod 1,000,000`, zero-padded) when the response code
is `00`, and the empty string for every other code; every key of its `Fields` has the
request's value except `39`, which has the response code; the request is unchanged. -/
theorem C23_auth_response (c : Clock) (request : AuthorizationRequest)
    (responseCode responseText : GoString) (ht : 0 ≤ (c 0).Unix) :
    (responseCode = str "00" →
      (GenerateMockAuthResponse c request responseCode responseText).1.AuthCode =
        str "AUTH" ++ fixedWidth 6 ((c 0).Unix % 1000000).toNat) ∧
    (responseCode ≠ str "00" →
      (GenerateMockAuthResponse c request responseCode responseText).1.AuthCode = []) ∧
    (∀ key : GoString,
      (GenerateMockAuthResponse c request responseCode responseText).1.Fields.lookup key =
        if key = str "39" then some responseCode else request.Fields.lookup key) ∧
    (GenerateMockAuthResponse c request responseCode responseText).2.1 = request := by
  refine ⟨fun h00 => ?_, fun hne => ?_, fun key => ?_, ?_⟩
  · have hmod : Int.tmod (c 0).Unix 1000000 = (c 0).Unix % 1000000 :=
      Int.tmod_eq_emod ht (by decide)
    have hpad := (sprintf0d_fixedWidth 5 ((c 0).Unix % 1000000) (by omega) (by omega)).1
    simp only [GenerateMockAuthResponse, timeNow, h00, if_true, hmod]
    rw [← hpad]
  · simp only [GenerateMockAuthResponse, hne, if_false]
  · simp only [GenerateMockAuthResponse]
    by_cases hk : key = str "39"
    · rw [if_pos hk, hk]
      exact AList.lookup_insert _
    · rw [if_neg hk, AList.lookup_insert_ne hk]
      exact lookup_copy key request.Fields
  · simp only [GenerateMockAuthResponse]

/-- C23 witness: the sample request, approved at Unix time 1700000000. -/
theorem C23_auth_response_witness :
    (0 : Int) ≤ (sampleSys.clock 0).Unix ∧
    (GenerateMockAuthResponse sampleSys.clock sampleRequest (str "00")
      (str "Approved")).1.AuthCode = str "AUTH" ++ fixedWidth 6 ((sampleSys.clock 0).Unix %
        1000000).toNat :=
  ⟨by decide, (C23_auth_response sampleSys.clock sampleRequest (str "00") (str "Approved")
    (by decide)).1 rfl⟩

/-- C24 counterexample: for the amount `1000000000000` field `4` has 13 characters. -/
theorem C24_counterexample :
    (0 : Int) ≤ 1000000000000 ∧
    (((GenerateISO8583Fields sampleFormat sampleSys.clock sampleCard 1000000000000
      (str "986")).1.lookup (str "4")).map fun v => v.length) = some 13 :=
  ⟨by decide, by decide⟩

/-- C24 (amended): for every card, every currency and every amount with
`0 ≤ amount < 10^12`, field `4` of `GenerateISO8583Fields` is present, is exactly 12
characters long, all decimal digits, denotes `amount`, and is the decimal rendering of
`amount` padded on the left with zeros. -/
theorem C24_amount_field (format : TimeFormat) (c : Clock) (card : Card) (amount : Int)
    (currency : GoString) (hlo : 0 ≤ amount) (hhi : amount < 10 ^ 12) :
    ∃ f4 : GoString,
      (GenerateISO8583Fields format c card amount currency).1.lookup (str "4") = some f4 ∧
      f4.length = 12 ∧ allDigits f4 ∧ (decimalValue f4 : Int) = amount ∧
      f4 = List.replicate (12 - (Itoa amount).length) 48 ++ Itoa amount := by
  obtain ⟨hfw, hpad⟩ := sprintf0d_fixedWidth 11 amount hlo hhi
  have hk : amount.toNat < 10 ^ 12 := by omega
  refine ⟨sprintf0d 12 amount, ?_, ?_, ?_, ?_, hpad⟩
  · simp only [GenerateISO8583Fields, timeNow, generateSTAN, generateRRN]
    split
    · simp [AList.lookup_insert, AList.lookup_insert_ne, show str "4" ≠ str "35" by decide,
        show str "4" ≠ str "49" by decide, show str "4" ≠ str "42" by decide,
        show str "4" ≠ str "41" by decide, show str "4" ≠ str "37" by decide,
        show str "4" ≠ str "22" by decide, show str "4" ≠ str "14" by decide,
        show str "4" ≠ str "13" by decide, show str "4" ≠ str "12" by decide,
        show str "4" ≠ str "11" by decide, show str "4" ≠ str "7" by decide]
    · simp [AList.lookup_insert, AList.lookup_insert_ne,
        show str "4" ≠ str "49" by decide, show str "4" ≠ str "42" by decide,
        show str "4" ≠ str "41" by decide, show str "4" ≠ str "37" by decide,
        show str "4" ≠ str "22" by decide, show str "4" ≠ str "14" by decide,
        show str "4" ≠ str "13" by decide, show str "4" ≠ str "12" by decide,
        show str "4" ≠ str "11" by decide, show str "4" ≠ str "7" by decide]
  · rw [hfw, fixedWidth_length]
  · rw [hfw]; exact fixedWidth_allDigits _ _
  · rw [hfw, decimalValue_fixedWidth 12 amount.toNat hk]
    omega

/-- C24 witness: the amount 10000 of the tests. -/
theorem C24_amount_field_witness :
    ∃ f4 : GoString,
      (GenerateISO8583Fields sampleFormat sampleSys.clock sampleCard 10000
        (str "986")).1.lookup (str "4") = some f4 ∧
      f4.length = 12 ∧ allDigits f4 ∧ (decimalValue f4 : Int) = 10000 ∧
      f4 = List.replicate (12 - (Itoa 10000).length) 48 ++ Itoa 10000 :=
  C24_amount_field sampleFormat sampleSys.clock sampleCard 10000 (str "986") (by decide)
    (by decide)

/-- C25: for every 32-byte digest whose lowercase hexadecimal rendering contains at least
`cvcLength` characters in `0`..`9`, the CVC returned by `GenerateDeterministicCVC` is the
first `cvcLength` such characters of the rendering, in left-to-right order. -/
theorem C25_cvc_scan_path (hmac : KeyedHash) (pan expMonth expYear secret : GoString)
    (hsecret : secret ≠ [])
    (henough : cvcLengthOf pan ≤ (decimalChars (hexEncodeToString
      (hmac.sum secret (cvcPayload pan expMonth expYear)))).length) :
    (cvcLengthOf pan = 3 ∨ cvcLengthOf pan = 4) ∧
    GenerateDeterministicCVC hmac pan expMonth expYear secret =
      .ok ((decimalChars (hexEncodeToString
        (hmac.sum secret (cvcPayload pan expMonth expYear)))).take (cvcLengthOf pan)) := by
  refine ⟨cvcLengthOf_cases pan, ?_⟩
  rw [GenerateDeterministicCVC_value hmac pan expMonth expYear secret hsecret, if_pos henough]

/-- C25 witness: the sample hash on the Visa test PAN. -/
theorem C25_cvc_scan_path_witness :
    str "k" ≠ [] ∧
    (cvcLengthOf (str "4000000000000002") = 3 ∨ cvcLengthOf (str "4000000000000002") = 4) ∧
    GenerateDeterministicCVC sampleHash (str "4000000000000002") (str "12") (str "2027")
        (str "k") =
      .ok ((decimalChars (hexEncodeToString (sampleHash.sum (str "k")
        (cvcPayload (str "4000000000000002") (str "12") (str "2027"))))).take
          (cvcLengthOf (str "4000000000000002"))) :=
  ⟨by decide, C25_cvc_scan_path sampleHash (str "4000000000000002") (str "12") (str "2027")
    (str "k") (by decide) (by decide)⟩

/-- The value of the fallback path: when the rendering of the digest holds `k < cvcLength`
decimal characters, `GenerateDeterministicCVC` returns those `k` characters followed by the
first `cvcLength - k` digest bytes, each reduced modulo 10; with `k = 0` this is the first
`cvcLength` digest bytes, each reduced modulo 10. -/
theorem GenerateDeterministicCVC_fallback_value (hmac : KeyedHash)
    (pan expMonth expYear secret : GoString) (hsecret : secret ≠ [])
    (hfew : (decimalChars (hexEncodeToString
      (hmac.sum secret (cvcPayload pan expMonth expYear)))).length < cvcLengthOf pan) :
    GenerateDeterministicCVC hmac pan expMonth expYear secret =
      .ok (decimalChars (hexEncodeToString (hmac.sum secret (cvcPayload pan expMonth expYear)))
        ++ ((hmac.sum secret (cvcPayload pan expMonth expYear)).take
          (cvcLengthOf pan - (decimalChars (hexEncodeToString
            (hmac.sum secret (cvcPayload pan expMonth expYear)))).length)).map byteMod10) ∧
    (decimalChars (hexEncodeToString (hmac.sum secret (cvcPayload pan expMonth expYear))) = [] →
      GenerateDeterministicCVC hmac pan expMonth expYear secret =
        .ok (((hmac.sum secret (cvcPayload pan expMonth expYear)).take
          (cvcLengthOf pan)).map byteMod10)) := by
  have hval := GenerateDeterministicCVC_value hmac pan expMonth expYear secret hsecret
  rw [if_neg (by omega)] at hval
  refine ⟨hval, fun hnone => ?_⟩
  rw [hval, hnone]
  simp

/-- C26: the code at the failing input, the 32-byte digest `1a ff .. ff` (the keyed hash
`oneDigitHash` stands for a key and payload with that digest) and the PAN
`4000000000000002`, for which `cvcLength` is 3: the rendering `1aff..ff` holds one decimal
character, fewer than 3; the first three digest bytes reduced modulo 10 are `655`; the code
returns `165`, the scanned `1` followed by the first two digest bytes modulo 10. -/
theorem C26_fallback_keeps_scanned_digit :
    oneDigitHash.sum (str "k")
        (cvcPayload (str "4000000000000002") (str "12") (str "2027")) =
      0x1a :: List.replicate 31 0xff ∧
    cvcLengthOf (str "4000000000000002") = 3 ∧
    decimalChars (hexEncodeToString (oneDigitHash.sum (str "k")
        (cvcPayload (str "4000000000000002") (str "12") (str "2027")))) = str "1" ∧
    ((oneDigitHash.sum (str "k")
        (cvcPayload (str "4000000000000002") (str "12") (str "2027"))).take
      (cvcLengthOf (str "4000000000000002"))).map byteMod10 = str "655" ∧
    GenerateDeterministicCVC oneDigitHash (str "4000000000000002") (str "12") (str "2027")
      (str "k") = .ok (str "165") ∧
    str "165" ≠ str "655" :=
  ⟨by rfl, by decide, by decide, by decide, by rfl, by decide⟩

/-- C27: the Luhn check digit is unique: for every string `p` of decimal digits with
`12 ≤ len(p) ≤ 18` and every decimal digit character `d`, `ValidateLuhn(p ++ d)` is true if
and only if `d` is the digit `CalculateLuhnCheckDigit(p)`. -/
theorem C27_check_digit_unique (p : GoString) (d : UInt8) (hdigits : allDigits p)
    (hlo : 12 ≤ p.length) (hhi : p.length ≤ 18) (hd : 48 ≤ d.toNat ∧ d.toNat ≤ 57) :
    ValidateLuhn (p ++ [d]) = true ↔ d.toNat - 48 = CalculateLuhnCheckDigit p := by
  obtain ⟨S, hS, hloop⟩ := luhnLoop_snoc_digit p d hdigits hd
  have hc : CalculateLuhnCheckDigit p = (10 - S % 10) % 10 := by
    simp [CalculateLuhnCheckDigit, hS]
  have hlen : (p ++ [d]).length = p.length + 1 := by simp
  unfold ValidateLuhn
  rw [hlen, if_neg (by omega), hloop, hc]
  simp only [beq_iff_eq, digitVal]
  omega

/-- C27 witness: the Visa partial PAN of the tests with the candidate digit `2`. -/
theorem C27_check_digit_unique_witness :
    ValidateLuhn (str "400000000000000" ++ [50]) = true ↔
      (50 : UInt8).toNat - 48 = CalculateLuhnCheckDigit (str "400000000000000") :=
  C27_check_digit_unique (str "400000000000000") 50 (by decide) (by decide) (by decide)
    (by decide)

/-- C28: `ValidateLuhn` detects every single-digit error: for every all-digit string `p`
that it accepts and every position `i`, replacing the digit at `i` by a different decimal
digit gives a string that it rejects. -/
theorem C28_single_digit_error (p : GoString) (i : Nat) (c : UInt8) (hdigits : allDigits p)
    (hvalid : ValidateLuhn p = true) (hi : i < p.length)
    (hc : 48 ≤ c.toNat ∧ c.toNat ≤ 57) (hne : p[i]? ≠ some c) :
    ValidateLuhn (p.set i c) = false := by
  apply ValidateLuhn_set_false p hdigits hvalid i hi c hc
  intro h
  apply hne
  rw [List.getElem?_eq_getElem hi, h]

/-- C28 witness: the valid Visa number of the tests with its fifth digit changed to `7`. -/
theorem C28_single_digit_error_witness :
    ValidateLuhn (str "4000000000000002") = true ∧
      ValidateLuhn ((str "4000000000000002").set 4 55) = false :=
  ⟨by decide, C28_single_digit_error (str "4000000000000002") 4 55 (by decide) (by decide)
    (by decide) (by decide) (by decide)⟩

/-- C29: the derived CVC does not depend on the middle digits of the PAN: for every non-empty
secret, month and year, two PANs of the same length, at least 6, that agree on their first
6 and on their last 4 characters receive the same CVC. -/
theorem C29_cvc_ignores_middle (hmac : KeyedHash)
    (pan1 pan2 expMonth expYear secret : GoString) (hsecret : secret ≠ [])
    (hlen : pan1.length = pan2.length) (_h6 : 6 ≤ pan1.length)
    (hfirst : pan1.take 6 = pan2.take 6)
    (hlast : pan1.drop (pan1.length - 4) = pan2.drop (pan2.length - 4)) :
    ∃ cvc, GenerateDeterministicCVC hmac pan1 expMonth expYear secret = .ok cvc ∧
      GenerateDeterministicCVC hmac pan2 expMonth expYear secret = .ok cvc := by
  obtain ⟨cvc, hcvc, -, -⟩ := GenerateDeterministicCVC_ok hmac pan1 expMonth expYear secret hsecret
  refine ⟨cvc, hcvc, ?_⟩
  rw [← GenerateDeterministicCVC_congr hmac pan1 pan2 expMonth expYear secret hlen hfirst hlast]
  exact hcvc

/-- C29 witness: two Visa numbers that differ only in their middle digits, under
HMAC-SHA256 and the secret `test-secret`. -/
theorem C29_cvc_ignores_middle_witness :
    ∃ cvc, GenerateDeterministicCVC hmacSHA256 (str "4000000000000002") (str "12") (str "2027")
        (str "test-secret") = .ok cvc ∧
      GenerateDeterministicCVC hmacSHA256 (str "4000001234560002") (str "12") (str "2027")
        (str "test-secret") = .ok cvc :=
  C29_cvc_ignores_middle hmacSHA256 (str "4000000000000002") (str "4000001234560002") (str "12")
    (str "2027") (str "test-secret") (by decide) (by decide) (by decide) (by decide) (by decide)

/-- C30: once the secret is non-empty the derivation-failure branch of the transform loop is
unreachable: for every order, whatever its PAN, month and year, the derivation returns a
CVC, and the loop completes without error with one output order per input order, each
carrying a CVC. -/
theorem C30_transform_never_fails (hmac : KeyedHash) (secret : GoString) (orders : List Order)
    (hsecret : secret ≠ []) :
    (∀ order : Order, ∃ cvc, GenerateDeterministicCVC hmac order.PAN
      (sprintf02d order.ExpiryMonth) (Itoa order.ExpiryYear) secret = .ok cvc) ∧
    ∃ out : List Order, transformLoop hmac secret orders = .ok out ∧
      out.length = orders.length ∧ ∀ (i : Nat), i < orders.length →
        ∃ o2, out[i]? = some o2 ∧ o2.CVC ≠ [] := by
  constructor
  · intro order
    obtain ⟨cvc, hcvc, -, -⟩ := GenerateDeterministicCVC_ok hmac order.PAN
      (sprintf02d order.ExpiryMonth) (Itoa order.ExpiryYear) secret hsecret
    exact ⟨cvc, hcvc⟩
  · obtain ⟨out, h1, h2⟩ := transformLoop_cvc hmac secret hsecret orders
    obtain ⟨out3, h3, hlen, -⟩ := transformLoop_frame hmac secret hsecret orders
    rw [h1] at h3
    injection h3 with h3
    subst h3
    refine ⟨out, h1, hlen, fun i hi => ?_⟩
    obtain ⟨o2, ho2, hne, -⟩ := h2 i orders[i] (List.getElem?_eq_getElem hi)
    exact ⟨o2, ho2, hne⟩

/-- C30 witness: an order with an empty PAN and a negative month, and one with a
non-numeric PAN, under HMAC-SHA256. -/
theorem C30_transform_never_fails_witness :
    str "s" ≠ [] ∧
    ∃ out : List Order,
      transformLoop hmacSHA256 (str "s")
        [{ sampleOrder2 with PAN := [], ExpiryMonth := -3 },
         { sampleOrder2 with PAN := str "card-x" }] = .ok out ∧
      out.length = 2 ∧ ∀ (i : Nat), i < 2 → ∃ o2, out[i]? = some o2 ∧ o2.CVC ≠ [] :=
  ⟨by decide, (C30_transform_never_fails hmacSHA256 (str "s")
    [{ sampleOrder2 with PAN := [], ExpiryMonth := -3 },
     { sampleOrder2 with PAN := str "card-x" }] (by decide)).2⟩

end CardGen
